import Mathlib

/-!
Verification of the `python-wsl` library (plain-text relational databases
with schemas, integrity checking, and a tree-shape engine).

The Python sources are shallowly embedded: every definition below is a
direct translation of the function of the same (or near-same) name from
the repository.  Python text positions become `Nat` indices into a
`List Char`; Python exceptions become an explicit error type `PyErr`
returned through `Except`; Python dicts become insertion-ordered
association lists.
-/

set_option maxRecDepth 10000

namespace WslSpec

/-- Column values occurring in the claims: WSL integers and strings/ids.
Python is dynamically typed; the databases in all claims hold only these. -/
inductive V where
  | vint (n : Int)
  | vstr (s : String)
  deriving DecidableEq, Repr

/-- Comparison on values, used for Python `sorted`/`list.sort` on rows.
Within one column all values have the same constructor (same domain), which
is the only situation the source ever compares; across constructors Python
would raise `TypeError`, we pick `vint < vstr` as an arbitrary total order. -/
def V.cmp : V → V → Ordering
  | .vint a, .vint b => compare a b
  | .vstr a, .vstr b => compare a b
  | .vint _, .vstr _ => .lt
  | .vstr _, .vint _ => .gt

/-- Lexicographic comparison of rows (Python tuple comparison). -/
def rowCmp : List V → List V → Ordering
  | [], [] => .eq
  | [], _ :: _ => .lt
  | _ :: _, [] => .gt
  | a :: as, b :: bs =>
    match V.cmp a b with
    | .eq => rowCmp as bs
    | o => o

def rowLe (a b : List V) : Bool :=
  match rowCmp a b with
  | .gt => false
  | _ => true

/-- Python exceptions raised by the embedded code.  Constructors that carry
structured fields stand for an exception whose message is %-formatted from
exactly those fields in the source. -/
inductive PyErr where
  /-- `wsl.LexError(lexicaltype, text, startpos, errorpos, errormsg)` -/
  | lexError (lexicaltype text : String) (startpos errorpos : Nat) (errormsg : String)
  /-- `wsl.ParseError` constructed with all five required arguments. -/
  | parseError (context text : String) (startpos errorpos : Nat) (errormsg : String)
  /-- `wsl.ParseError(msg)` with a single argument: `ParseError.__init__`
  requires `(context, text, startpos, errorpos, errormsg)`, so Python raises
  `TypeError: __init__() missing 4 required positional arguments` at the
  raise site.  The intended message is retained for reference. -/
  | parseErrorBadCall (intendedMsg : String)
  /-- plain `ValueError(msg)` -/
  | valueError (msg : String)
  /-- `ValueError()` with no message -/
  | valueErrorNoMsg
  /-- `wsl.IntegrityError(msg)` raised for a KEY violation; the message is
  built from exactly (table, row, keyname) in `integrity.py` line 53. -/
  | integrityErrorKey (table : String) (row : List V) (keyname : String)
  /-- `wsl.IntegrityError(msg)` raised for a REFERENCE violation; the message
  is built from exactly these fields in `integrity.py` line 61. -/
  | integrityErrorFKey (table : String) (row : List V) (fkname : String)
      (rowkey : List V) (reftable : String)
  /-- `ValueError(msg)` from `integrity.py` line 45: foreign key with no
  matching unique key on the referenced table. -/
  | valueErrorNoMatchingKey (fkname reftable : String)
  /-- `ValueError(msg)` from `Settable.set` (objects2rows.py line 16): a
  write-once cell set to two disagreeing values. -/
  | valueErrorSettableConflict (old new : V)
  /-- the subclass `wsl.UniqueConstraintViolation(key, row)` -/
  | uniqueConstraintViolation (key : String) (row : List V)
  /-- the subclass `wsl.ForeignKeyConstraintViolation(foreignkey, row)` -/
  | foreignKeyConstraintViolation (foreignkey : String) (row : List V)
  /-- raw Python `KeyError` from a dict subscript -/
  | keyError
  /-- raw Python `ValueError` from `list.index` on a missing element -/
  | indexNotFound
  /-- `NameError`: an undefined name was referenced -/
  | nameError (name : String)
  /-- `AttributeError`: attribute access on an object lacking it -/
  | attributeError (attr : String)
  /-- failed Python `assert` -/
  | assertionError
  /-- `wsl.FormatError` -/
  | formatError (msg : String)
  /-- `TypeError(msg)` raised explicitly by the source -/
  | typeError (msg : String)
  /-- `TypeError` raised by the interpreter itself (indexing a sequence
  with a value of the wrong type, comparing incompatible types, calling a
  function with too few arguments, ...); the message is descriptive. -/
  | typeErrorBuiltin (msg : String)
  /-- raw Python `IndexError` from an out-of-range sequence subscript -/
  | indexError
  /-- `wsl.ParseError(context, text, errorpos)` with only three arguments:
  `ParseError.__init__` requires five, so Python raises `TypeError:
  __init__() missing 2 required positional arguments` at the raise site.
  The intended context is retained for reference. -/
  | parseErrorBadArity (intendedContext : String)
  deriving DecidableEq, Repr

instance {ε α : Type} [DecidableEq ε] [DecidableEq α] : DecidableEq (Except ε α) := fun a b =>
  match a, b with
  | .ok x, .ok y =>
    if h : x = y then .isTrue (by rw [h]) else .isFalse (by simp [h])
  | .error x, .error y =>
    if h : x = y then .isTrue (by rw [h]) else .isFalse (by simp [h])
  | .ok _, .error _ => .isFalse (by simp)
  | .error _, .ok _ => .isFalse (by simp)

abbrev Res (α : Type) := Except PyErr α

/-- Python text plus an index, as used by all lexers/decoders. -/
abbrev Text := List Char

def charAt? (t : Text) (i : Nat) : Option Char := t.get? i

/-- `ord(text[i])` where the caller has ensured `i < len(text)`; out of range
is Python `IndexError`, which no embedded code path reaches. -/
def ordAt (t : Text) (i : Nat) : Nat :=
  match t.get? i with
  | some c => c.toNat
  | none => 0

def isDigit (c : Char) : Bool := 0x30 ≤ c.toNat ∧ c.toNat ≤ 0x39

def isNonzeroDigit (c : Char) : Bool := 0x31 ≤ c.toNat ∧ c.toNat ≤ 0x39

/-- A maximal run of decimal digits starting at `k` (fuel-bounded scan;
fuel `t.length` always suffices). -/
def digitsRun (t : Text) (k : Nat) : Nat → Nat
  | 0 => k
  | fuel + 1 =>
    match charAt? t k with
    | some c => if isDigit c then digitsRun t (k + 1) fuel else k
    | none => k

/-- A maximal run of identifier characters (`> 0x20`, `≠ 0x7f`). -/
def identRun (t : Text) (k : Nat) : Nat → Nat
  | 0 => k
  | fuel + 1 =>
    match charAt? t k with
    | some c => if c.toNat > 0x20 ∧ c.toNat ≠ 0x7f then identRun t (k + 1) fuel else k
    | none => k

/-! ### lexwsl.py -/

/-- `lex_wsl_int(text, i)` (lexwsl.py:39-50): `re.match(r'0|-?[1-9][0-9]*',
text[i:])`.  The regex alternation tries `0` first; otherwise an optional
minus followed by a nonzero digit and a run of digits. -/
def lex_wsl_int (t : Text) (i : Nat) : Res (Nat × String) :=
  match charAt? t i with
  | some c =>
    if c = '0' then
      .ok (i + 1, String.mk (t.drop i |>.take 1))
    else
      -- -?[1-9][0-9]*
      let start := i
      let j := if c = '-' then i + 1 else i
      match charAt? t j with
      | some d =>
        if isNonzeroDigit d then
          let stop := digitsRun t (j + 1) t.length
          .ok (stop, String.mk ((t.drop start).take (stop - start)))
        else
          .error (.lexError "WSL integer literal" (String.mk t) start i
            "Integer literals must match /0|-?[1-9][0-9]*/")
      | none =>
        .error (.lexError "WSL integer literal" (String.mk t) start i
          "Integer literals must match /0|-?[1-9][0-9]*/")
  | none =>
    .error (.lexError "WSL integer literal" (String.mk t) i i
      "Integer literals must match /0|-?[1-9][0-9]*/")

/-- `lex_wsl_identifier(text, i)` (lexwsl.py:59-66). -/
def lex_wsl_identifier (t : Text) (i : Nat) : Res (Nat × String) :=
  let stop := identRun t i t.length
  if stop = i then
    .error (.lexError "Identifier literal" (String.mk t) i i
      "End of line or invalid character with no valid characters read")
  else
    .ok (stop, String.mk ((t.drop i).take (stop - i)))

/-- `lex_wsl_string_with_escapes(text, i)` (lexwsl.py:100-133).

Faithful points worth noting:
* only `\[`, `\]`, `\\` are handled; a `\x` escape calls `_hexdecode`,
  whose body refers to the undefined name `hex2dec` (only `_hex2dec`
  exists in the module), so Python raises `NameError` — unless the first
  hex digit is itself invalid, in which case `_hex2dec` tries to raise
  `ParseError`, a name not imported into lexwsl.py, again a `NameError`;
* every other escape (including `\u`, `\U`) raises
  `LexError(..., 'Unknown escape sequence: \%c' % (c,))` where `c` is the
  backslash itself (source bug), giving the message two backslashes;
* a trailing backslash at end of input loops forever in Python
  (no branch advances `i`); the fuel returns `assertionError` there,
  a state no claim exercises. -/
def lexStrEscLoop (t : Text) (start : Nat) : Nat → List Char → Nat → Res (Nat × String)
  | _, _, 0 => .error .assertionError
  | k, acc, fuel + 1 =>
    match charAt? t k with
    | none =>
      .error (.lexError "String literal" (String.mk t) start k
        "String must end with a bracket, but encountered end of input")
    | some c =>
      let d := c.toNat
      if d = 0x5d then
        .ok (k + 1, String.mk acc.reverse)
      else if d = 0x5c then
        match charAt? t (k + 1) with
        | some c1 =>
          if c1.toNat = 0x5b ∨ c1.toNat = 0x5c ∨ c1.toNat = 0x5d then
            lexStrEscLoop t start (k + 2) (c1 :: acc) fuel
          else if c1 = 'x' then
            -- `_hexdecode(text[k+2:])`: `len >= 2` then
            -- `_hex2dec(chars[0])*16 + hex2dec(chars[1])` — the second
            -- call is to an undefined name.
            match charAt? t (k + 2) with
            | some h0 =>
              match charAt? t (k + 3) with
              | some _ =>
                if isDigit h0 ∨ (0x61 ≤ h0.toNat ∧ h0.toNat < 0x67) then
                  .error (.nameError "hex2dec")
                else
                  .error (.nameError "ParseError")
              | none => .error .valueErrorNoMsg
            | none => .error .valueErrorNoMsg
          else
            .error (.lexError "String literal" (String.mk t) start k
              "Unknown escape sequence: \\\\")
        | none =>
          -- no branch taken, `i` unchanged: Python loops forever here
          lexStrEscLoop t start k acc fuel
      else if d < 0x20 ∨ d = 0x5b ∨ d = 0x7f then
        .error (.lexError "String literal" (String.mk t) start k
          "invalid character in string literal")
      else
        lexStrEscLoop t start (k + 1) (c :: acc) fuel

def lex_wsl_string_with_escapes (t : Text) (i : Nat) : Res (Nat × String) :=
  let start := i
  if (charAt? t i).isNone ∨ ordAt t i ≠ 0x5b then
    .error (.lexError "String literal" (String.mk t) start i "String must begin with a bracket")
  else
    lexStrEscLoop t start (i + 1) [] (2 * t.length + 2)

/-! ### domain.py -/

/-- `hex2dec(c)` (domain.py:34-40). -/
def hex2dec (c : Char) : Res Nat :=
  let x := c.toNat
  if 0x30 ≤ x ∧ x ≤ 0x39 then .ok (x - 0x30)
  else if 0x61 ≤ x ∧ x < 0x67 then .ok (x - 0x57)
  else .error (.parseErrorBadCall "Not a valid hexadecimal character")

/-- `parse_hex(chars)` (domain.py:43-46): two hex digits. -/
def parse_hex (chars : Text) : Res Nat :=
  match chars with
  | c0 :: c1 :: _ => do
    let a ← hex2dec c0
    let b ← hex2dec c1
    .ok (a * 16 + b)
  | _ => .error (.parseErrorBadCall "")

/-- Python `int(s)` on a digit string (with optional sign handled by the
callers' inputs never carrying one), `none` when not a valid integer. -/
def pyIntOfDigits? (chars : Text) : Option Nat :=
  if chars ≠ [] ∧ chars.all isDigit then
    some (chars.foldl (fun acc c => acc * 10 + (c.toNat - 0x30)) 0)
  else
    none

/-- `parse_unicode(chars)` (domain.py:49-55): `chr(int(chars[:4]))`,
four decimal digits. -/
def parse_unicode (chars : Text) : Res Char :=
  if chars.length ≥ 4 then
    match pyIntOfDigits? (chars.take 4) with
    | some n =>
      if n < 0xd800 then
        .ok (Char.ofNat n)
      else
        -- four decimal digits are at most 9999 < 0xd800, unreachable
        .error .assertionError
    | none => .error (.parseErrorBadCall "")
  else .error (.parseErrorBadCall "")

/-- `parse_Unicode(chars)` (domain.py:58-64): `chr(int(chars[:8]))`,
eight decimal digits.  `chr` accepts code points up to 0x10ffff; Python
would also accept surrogates, which `Char` cannot represent — no claim
exercises them, they map to `assertionError`. -/
def parse_Unicode (chars : Text) : Res Char :=
  if chars.length ≥ 8 then
    match pyIntOfDigits? (chars.take 8) with
    | some n =>
      if n < 0xd800 ∨ (0xe000 ≤ n ∧ n < 0x110000) then
        .ok (Char.ofNat n)
      else if n < 0x110000 then
        .error .assertionError
      else
        .error (.parseErrorBadCall "")
    | none => .error (.parseErrorBadCall "")
  else .error (.parseErrorBadCall "")

/-- `Int_decode(line, i)` (domain.py:227-241).  Consumes a run of decimal
digits — there is no `-` branch — then rejects a leading zero unless the
token is exactly `0`.  Both error paths construct `wsl.ParseError` with a
single argument, which raises `TypeError` (see `PyErr.parseErrorBadCall`). -/
def Int_decode (t : Text) (i : Nat) : Res (Nat × Int) :=
  let start := i
  let stop := digitsRun t i t.length
  if stop = start then
    .error (.parseErrorBadCall "Did not find expected integer literal")
  else if ordAt t start = 0x30 ∧ stop - start > 1 then
    .error (.parseErrorBadCall "Found integer literal (leading zero)")
  else
    match pyIntOfDigits? ((t.drop start).take (stop - start)) with
    | some n => .ok (stop, (n : Int))
    | none => .error .assertionError

/-- `Int_encode(integer)` (domain.py:244-246): `str(integer)`. -/
def Int_encode (n : Int) : String := toString n

/-- `ID_decode(line, i)` (domain.py:124-132). -/
def ID_decode (t : Text) (i : Nat) : Res (Nat × String) :=
  let stop := identRun t i t.length
  if stop = i then
    .error (.parseErrorBadCall "EOL or invalid character while expecting ID")
  else
    .ok (stop, String.mk ((t.drop i).take (stop - i)))

/-- `ID_encode(idval)` (domain.py:135-140). -/
def ID_encode (idval : String) : Res String :=
  if idval.data.all (fun c => ¬(c.toNat < 0x20 ∨ c.toNat = 0x20 ∨ c.toNat = 0x5b ∨
      c.toNat = 0x5d ∨ c.toNat = 0x7f)) then
    .ok idval
  else
    .error (.formatError "Disallowed character in ID value")

/-- The escape-decoding branch of `make_String_decode(escape=True)`
(domain.py:143-178).  Only `\xHH` (two hex digits, advancing 4) decodes:
`parse_hex` returns an `int`, so the call-site `chr(parse_hex(...))`
(domain.py:161) produces a character.  The `\uDDDD` and `\UDDDDDDDD`
branches are broken: `parse_unicode`/`parse_Unicode` already return
`chr(int(...))` — a one-character string — and the call sites wrap
`chr(...)` around them again (domain.py:164, 167), so `chr` of a `str`
raises the interpreter `TypeError` whenever the inner parse succeeds.
Unknown escapes and the argument-less `wsl.ParseError()` calls raise
`TypeError` as well (`parseErrorBadCall`).  As in the lexer, a trailing
backslash loops forever in Python; fuel exhaustion maps to
`assertionError`. -/
def strDecEscLoop (t : Text) : Nat → List Char → Nat → Res (Nat × String)
  | _, _, 0 => .error .assertionError
  | k, acc, fuel + 1 =>
    match charAt? t k with
    | none =>
      .error (.parseErrorBadCall "EOL while looking for closing quote")
    | some c =>
      let d := c.toNat
      if d = 0x5d then
        .ok (k + 1, String.mk acc.reverse)
      else if d = 0x5c then
        match charAt? t (k + 1) with
        | some c1 =>
          if c1 = 'x' then
            match parse_hex (t.drop (k + 2)) with
            | .error e => .error e
            | .ok n =>
              if n < 0xd800 then
                strDecEscLoop t (k + 4) (Char.ofNat n :: acc) fuel
              else
                .error .assertionError  -- two hex digits are < 256
          else if c1 = 'u' then
            match parse_unicode (t.drop (k + 2)) with
            | .error e => .error e
            | .ok _ =>
              -- `cs.append(chr(parse_unicode(line[i+2:])))` (domain.py:164):
              -- `parse_unicode` returned a character, `chr` of a `str` is a
              -- `TypeError`
              .error (.typeErrorBuiltin "an integer is required (got type str)")
          else if c1 = 'U' then
            match parse_Unicode (t.drop (k + 2)) with
            | .error e => .error e
            | .ok _ =>
              -- `cs.append(chr(parse_Unicode(line[i+2:])))` (domain.py:167):
              -- same double `chr`, a `TypeError`
              .error (.typeErrorBuiltin "an integer is required (got type str)")
          else
            .error (.parseErrorBadCall "Unknown escape sequence")
        | none => strDecEscLoop t k acc fuel
      else if d < 0x20 ∨ d = 0x5b ∨ d = 0x7f then
        .error (.parseErrorBadCall "Disallowed character in string literal")
      else
        strDecEscLoop t (k + 1) (c :: acc) fuel

def String_decode_escape (t : Text) (i : Nat) : Res (Nat × String) :=
  if (charAt? t i).isNone ∨ ordAt t i ≠ 0x5b then
    .error (.parseErrorBadCall "Did not find expected WSL string literal")
  else
    strDecEscLoop t (i + 1) [] (2 * t.length + 2)

/-- The no-escape branch of `make_String_decode(escape=False)`
(domain.py:179-197). -/
def strDecNoEscLoop (t : Text) : Nat → Nat → Res Nat
  | _, 0 => .error .assertionError
  | k, fuel + 1 =>
    match charAt? t k with
    | none => .error (.parseErrorBadCall "EOL while looking for closing quote")
    | some c =>
      let d := c.toNat
      if d = 0x5d then .ok k
      else if d < 0x20 ∨ d = 0x5b ∨ d = 0x7f then
        .error (.parseErrorBadCall "Disallowed character in string literal")
      else strDecNoEscLoop t (k + 1) fuel

def String_decode_noescape (t : Text) (i : Nat) : Res (Nat × String) :=
  if (charAt? t i).isNone ∨ ordAt t i ≠ 0x5b then
    .error (.parseErrorBadCall "Did not find expected WSL string literal")
  else
    match strDecNoEscLoop t (i + 1) (t.length + 2) with
    | .ok stop => .ok (stop + 1, String.mk ((t.drop (i + 1)).take (stop - (i + 1))))
    | .error e => .error e

/-- The no-escape branch of `make_String_encode(escape=False)`
(domain.py:217-223). -/
def String_encode_noescape (s : String) : Res String :=
  if s.data.all (fun c => ¬(c.toNat < 0x20 ∨ c.toNat = 0x5b ∨ c.toNat = 0x5d ∨
      c.toNat = 0x7f)) then
    .ok ("[" ++ s ++ "]")
  else
    .error (.formatError "Disallowed character in String value")

/-! ### Python dict/str helpers

Python dicts are insertion-ordered; they are modeled as association lists
whose keys are unique. -/

/-- Stable insertion sort (Python `sorted`/`list.sort` are stable; all
elements the embedded code ever compares as equal are structurally equal,
so stability questions never arise). -/
def insertSorted {α : Type} (le : α → α → Bool) (x : α) : List α → List α
  | [] => [x]
  | y :: ys => if le x y then x :: y :: ys else y :: insertSorted le x ys

def sortBy {α : Type} (le : α → α → Bool) : List α → List α
  | [] => []
  | x :: xs => insertSorted le x (sortBy le xs)

/-- Lexicographic code-point comparison (Python `str` comparison). -/
def strCmp : List Char → List Char → Ordering
  | [], [] => .eq
  | [], _ :: _ => .lt
  | _ :: _, [] => .gt
  | a :: as, b :: bs =>
    match compare a.toNat b.toNat with
    | .eq => strCmp as bs
    | o => o

def strLeB (a b : String) : Bool :=
  match strCmp a.data b.data with
  | .gt => false
  | _ => true

def alGet? {α : Type} (l : List (String × α)) (k : String) : Option α :=
  match l.find? (fun p => p.1 = k) with
  | some p => some p.2
  | none => none

def alContains {α : Type} (l : List (String × α)) (k : String) : Bool :=
  (alGet? l k).isSome

/-- Python whitespace (for `str.split`). -/
def isPyWs (c : Char) : Bool :=
  c = ' ' ∨ c = '\t' ∨ c = '\n' ∨ c = '\x0d' ∨ c = '\x0b' ∨ c = '\x0c'

/-- `s.split()` — split on whitespace runs, no empty fields. -/
def pySplitWs (s : String) : List String :=
  (s.data.splitOnP isPyWs).filter (· ≠ []) |>.map String.mk

/-- `s.split(None, 1)` — at most one split: leading whitespace stripped,
first field, then the remainder starting at the first character after the
separating whitespace run (trailing whitespace preserved).  Python returns
a list of zero, one or two fields. -/
def pySplitWs1 (s : String) : List String :=
  let t := s.data.dropWhile isPyWs
  match t with
  | [] => []
  | _ =>
    let tok := t.takeWhile (fun c => ¬ isPyWs c)
    let rest := (t.dropWhile (fun c => ¬ isPyWs c)).dropWhile isPyWs
    match rest with
    | [] => [String.mk tok]
    | _ => [String.mk tok, String.mk rest]

def splitSubFrom (sep : List Char) : List Char → List Char → Nat → List (List Char)
  | t, cur, 0 => [cur.reverse ++ t]
  | [], cur, _ + 1 => [cur.reverse]
  | c :: rest, cur, fuel + 1 =>
    if sep.isPrefixOf (c :: rest) then
      cur.reverse :: splitSubFrom sep ((c :: rest).drop sep.length) [] fuel
    else
      splitSubFrom sep rest (c :: cur) fuel

/-- `s.split(sep)` for a non-empty literal separator; empty pieces are
preserved, as in Python. -/
def pySplitSub (s : String) (sep : String) : List String :=
  (splitSubFrom sep.data s.data [] (s.data.length + 1)).map String.mk

/-- `_is_lowercase` / `_is_uppercase` / `_is_identifier` (parse.py:6-20):
first character an ASCII letter, remaining characters ASCII letters or
underscore (digits are not accepted by this helper). -/
def isIdentifierPy (x : String) : Bool :=
  match x.data with
  | [] => false
  | c :: cs =>
    (0x61 ≤ c.toNat ∧ c.toNat ≤ 0x7a ∨ 0x41 ≤ c.toNat ∧ c.toNat ≤ 0x5a) ∧
    cs.all (fun d => (0x61 ≤ d.toNat ∧ d.toNat ≤ 0x7a) ∨
      (0x41 ≤ d.toNat ∧ d.toNat ≤ 0x5a) ∨ d = '_')

/-- `_is_variable` (parse.py:23-24): `v[0:1].isalpha() and v.isalnum()`. -/
def isVariablePy (v : String) : Bool :=
  match v.data with
  | [] => false
  | c :: _ => c.isAlpha ∧ v.data.all (fun d => d.isAlpha ∨ d.isDigit)

/-! ### schema.py data model -/

structure SchemaKeyRec where
  name : String
  spec : String
  table : String
  columns : List Nat
  deriving DecidableEq, Repr

structure SchemaForeignKeyRec where
  name : String
  spec : String
  table : String
  columns : List Nat
  reftable : String
  refcolumns : List Nat
  deriving DecidableEq, Repr

/-- The six-operation bundle of a domain (`funcs`).  The built-in domain
classes in domain.py define only `decode` and `encode`; `hasattr` checks
for the others fail, which is what the `Option` fields model. -/
structure DomainFuncs where
  decode? : Option (Text → Nat → Res (Nat × V))
  encode? : Option (V → Res String)
  wsllex? : Option (Text → Nat → Res (Nat × String))
  wslunlex? : Option (String → Res String)

structure SchemaDomainRec where
  name : String
  spec : String
  funcs : DomainFuncs

structure SchemaTableRec where
  name : String
  spec : String
  columns : List String
  colnames : List (List (Option String))
  deriving DecidableEq, Repr

structure Schema where
  spec : String
  domains : List (String × SchemaDomainRec)
  tables : List (String × SchemaTableRec)
  keys : List (String × SchemaKeyRec)
  foreignkeys : List (String × SchemaForeignKeyRec)

/-- `_valid_key_columns(columns, num_columns)` (schema.py:32-39). -/
def validKeyColumns (columns : List Nat) (numColumns : Nat) : Bool :=
  columns.all (fun i => i < numColumns) ∧
  (columns.zip (columns.drop 1)).all (fun p => p.1 < p.2)

/-- `_valid_foreign_key_indices(ix1, ix2, n1, n2)` (schema.py:42-55):
equal lengths, no duplicates on either side, all indices in range. -/
def validForeignKeyIndices (ix1 ix2 : List Nat) (n1 n2 : Nat) : Bool :=
  ix1.length = ix2.length ∧ ix1.Nodup ∧ ix2.Nodup ∧
  ix1.all (fun i => i < n1) ∧ ix2.all (fun i => i < n2)

/-- The validation performed by `Schema.__init__` (schema.py:178-220):
name coherence asserts, every column's domain declared, every key/foreign
key on a declared table with valid column indices.  There is no check that
a foreign key's `refcolumns` are covered by some declared unique key. -/
def mkSchema (spec : String) (domains : List (String × SchemaDomainRec))
    (tables : List (String × SchemaTableRec)) (keys : List (String × SchemaKeyRec))
    (foreignkeys : List (String × SchemaForeignKeyRec)) : Res Schema :=
  if ¬ (domains.all (fun p => p.1 = p.2.name) ∧ tables.all (fun p => p.1 = p.2.name) ∧
        keys.all (fun p => p.1 = p.2.name) ∧ foreignkeys.all (fun p => p.1 = p.2.name)) then
    .error .assertionError
  else if ¬ tables.all (fun p => p.2.columns.all (fun d => alContains domains d)) then
    .error (.valueError "Table has a column of an undefined domain")
  else if ¬ keys.all (fun p => alContains tables p.2.table) then
    .error (.valueError "Unique key constrains a table which is not defined")
  else if ¬ keys.all (fun p =>
      match alGet? tables p.2.table with
      | some t => validKeyColumns p.2.columns t.columns.length
      | none => false) then
    .error (.valueError "Invalid columns indices in key constraint")
  else if ¬ foreignkeys.all (fun p => alContains tables p.2.table) then
    .error (.valueError "Foreign key constrains a table which is not defined")
  else if ¬ foreignkeys.all (fun p => alContains tables p.2.reftable) then
    .error (.valueError "Foreign key references a table which is not defined")
  else if ¬ foreignkeys.all (fun p =>
      match alGet? tables p.2.table, alGet? tables p.2.reftable with
      | some t1, some t2 =>
        validForeignKeyIndices p.2.columns p.2.refcolumns
          t1.columns.length t2.columns.length
      | _, _ => false) then
    .error (.valueError "Invalid column specification in foreign key")
  else
    .ok ⟨spec, domains, tables, keys, foreignkeys⟩

/-! ### parse.py — `parse_foreignkey_decl` -/

/-- Build the `(variable -> column index)` map of one side of a REFERENCE
declaration (parse.py:156-168): `*` entries are skipped, variables must
satisfy `_is_variable` and may not repeat. -/
def fkSideMapGo (i : Nat) (vs : List String) (d : List (String × Nat)) :
    Res (List (String × Nat)) :=
  match vs with
  | [] => .ok d
  | v :: rest =>
    if v = "*" then fkSideMapGo (i + 1) rest d
    else if ¬ isVariablePy v then
      .error (.parseErrorBadCall "Invalid variable while parsing REFERENCE constraint")
    else if alContains d v then
      .error (.parseErrorBadCall "Variable used twice on the same side")
    else fkSideMapGo (i + 1) rest (d ++ [(v, i)])

def fkSideMap (vs : List String) : Res (List (String × Nat)) :=
  fkSideMapGo 0 vs []

/-- `parse_foreignkey_decl(line, tables)` (parse.py:111-177).  All its
`wsl.ParseError(single_argument)` raise sites actually raise `TypeError`
(see `PyErr.parseErrorBadCall`). -/
def parse_foreignkey_decl (line : String) (tables : List (String × SchemaTableRec)) :
    Res SchemaForeignKeyRec := do
  let (name, spec) ←
    match pySplitWs1 line with
    | [n, s] => pure (n, s)
    | _ => .error (.parseErrorBadCall "Failed to parse REFERENCE declaration")
  if ¬ isIdentifierPy name then
    .error (.parseErrorBadCall "Bad REFERENCE name")
  else do
  let (lhs, rhs) ←
    match pySplitSub spec "=>" with
    | [l, r] => pure (l, r)
    | _ => .error (.parseErrorBadCall "Could not parse as REFERENCE constraint")
  let (table1, vs1str) ←
    match pySplitWs1 lhs with
    | [t, v] => pure (t, v)
    | _ => .error (.parseErrorBadCall "Could not parse left-hand side of REFERENCE")
  let vs1 := pySplitWs vs1str
  let t1 ←
    match alGet? tables table1 with
    | some t => pure t
    | none => .error (.parseErrorBadCall "Undefined table in REFERENCE constraint")
  if vs1.length ≠ t1.columns.length then
    .error (.parseErrorBadCall "Wrong number of columns on left-hand side")
  else do
  let (table2, vs2str) ←
    match pySplitWs1 rhs with
    | [t, v] => pure (t, v)
    | _ => .error (.parseErrorBadCall "Could not parse right-hand side of REFERENCE")
  let vs2 := pySplitWs vs2str
  let t2 ←
    match alGet? tables table2 with
    | some t => pure t
    | none => .error (.parseErrorBadCall "Undefined table in REFERENCE constraint")
  if vs2.length ≠ t2.columns.length then
    .error (.parseErrorBadCall "Wrong number of columns on right-hand side")
  else do
  let d1 ← fkSideMap vs1
  let d2 ← fkSideMap vs2
  let keys1 := sortBy strLeB (d1.map Prod.fst)
  let keys2 := sortBy strLeB (d2.map Prod.fst)
  if keys1 ≠ keys2 then
    .error (.parseErrorBadCall
      "Different variables used on both sides of the arrow")
  else
    let ix1 := (sortBy (fun a b => strLeB a.1 b.1) d1).map Prod.snd
    let ix2 := (sortBy (fun a b => strLeB a.1 b.1) d2).map Prod.snd
    .ok ⟨name, spec, table1, ix1, table2, ix2⟩

/-! ### integrity.py — `check_database_integrity` -/

/-- `tuple(row[c] for c in cols)`; an out-of-range index is Python
`IndexError`. -/
def projRow (row : List V) (cols : List Nat) : Res (List V) :=
  match cols with
  | [] => .ok []
  | c :: rest =>
    match row.get? c with
    | some v =>
      match projRow row rest with
      | .ok vs => .ok (v :: vs)
      | .error e => .error e
    | none => .error .indexNotFound

/-- The per-foreign-key setup of `check_database_integrity`
(integrity.py:32-45): `zkey = sorted(zip(refcolumns, columns))`, split back
into `local`/`remote`, then search the declared keys of the referenced
table for one whose columns equal `remote`; a second match trips the
`assert found == False`, no match raises
`ValueError('... no matching unique key')`.  The result pairs each foreign
key with its `local` projection and the name of the matched key.
`fkZkey` is `zkey = sorted(zip(refcolumns, columns))`. -/
def fkZkey (fkey : SchemaForeignKeyRec) : List (Nat × Nat) :=
  sortBy
    (fun a b => a.1 < b.1 ∨ (a.1 = b.1 ∧ a.2 ≤ b.2) : Nat × Nat → Nat × Nat → Bool)
    (fkey.refcolumns.zip fkey.columns)

def fkLocal (fkey : SchemaForeignKeyRec) : List Nat := (fkZkey fkey).map Prod.snd

def fkRemote (fkey : SchemaForeignKeyRec) : List Nat := (fkZkey fkey).map Prod.fst

def resolveFkey (keysOfRef : List SchemaKeyRec) (fkey : SchemaForeignKeyRec) :
    Res (List Nat × String) :=
  match keysOfRef.filter (fun k => k.columns = fkRemote fkey) with
  | [] => .error (.valueErrorNoMatchingKey fkey.name fkey.reftable)
  | [k] => .ok (fkLocal fkey, k.name)
  | _ => .error .assertionError

/-- The declared keys of one table, in `schema.keys` insertion order
(the contents of `keys_of[table]`, integrity.py:27-30). -/
def keysOfTable (schema : Schema) (table : String) : List SchemaKeyRec :=
  ((schema.keys.map Prod.snd).filter (fun k => k.table = table))

/-- The resolved foreign keys of one table (the contents of
`fkeys_of[table]`), or the setup error. -/
def resolveFkeyList (schema : Schema) :
    List SchemaForeignKeyRec → Res (List (SchemaForeignKeyRec × List Nat × String))
  | [] => .ok []
  | fk :: rest =>
    match resolveFkey (keysOfTable schema fk.reftable) fk with
    | .ok (l, kn) =>
      match resolveFkeyList schema rest with
      | .ok xs => .ok ((fk, l, kn) :: xs)
      | .error e => .error e
    | .error e => .error e

def fkeysOfTable (schema : Schema) (table : String) :
    Res (List (SchemaForeignKeyRec × List Nat × String)) :=
  resolveFkeyList schema
    ((schema.foreignkeys.map Prod.snd).filter (fun k => k.table = table))

/-- The whole foreign-key setup loop runs before any row is examined; it
fails iff some foreign key fails to resolve. -/
def fkeySetupGo (schema : Schema) : List SchemaForeignKeyRec → Res Unit
  | [] => .ok ()
  | fk :: rest =>
    match resolveFkey (keysOfTable schema fk.reftable) fk with
    | .ok _ => fkeySetupGo schema rest
    | .error e => .error e

def fkeySetup (schema : Schema) : Res Unit :=
  fkeySetupGo schema (schema.foreignkeys.map Prod.snd)

/-- State of the `idx` dicts: key name → entries `(rowkey, position)`.
`idx.setdefault(rowkey, row) is not row` compares row *objects*; every row
parsed from text is a fresh tuple, so object identity is its position in
its table's list. -/
abbrev IdxState := List (String × List (List V × Nat))

def idxLookup (st : IdxState) (keyname : String) : List (List V × Nat) :=
  (alGet? st keyname).getD []

def idxInsert (st : IdxState) (keyname : String) (rk : List V) (pos : Nat) : IdxState :=
  match st with
  | [] => [(keyname, [(rk, pos)])]
  | (n, es) :: rest =>
    if n = keyname then (n, es ++ [(rk, pos)]) :: rest
    else (n, es) :: idxInsert rest keyname rk pos

/-- One row against one key of its table (integrity.py:50-53). -/
def keyCheckRow (table : String) (key : SchemaKeyRec) (row : List V) (pos : Nat)
    (st : IdxState) : Res IdxState := do
  let rk ← projRow row key.columns
  match (idxLookup st key.name).find? (fun e => e.1 = rk) with
  | some e =>
    if e.2 ≠ pos then
      .error (.integrityErrorKey table row key.name)
    else
      .ok st
  | none => .ok (idxInsert st key.name rk pos)

/-- One row against all keys of its table. -/
def keyCheckRowKeys (table : String) (keys : List SchemaKeyRec) (row : List V)
    (pos : Nat) (st : IdxState) : Res IdxState :=
  match keys with
  | [] => .ok st
  | k :: rest => do
    let st ← keyCheckRow table k row pos st
    keyCheckRowKeys table rest row pos st

/-- All rows of one table (position-tracked). -/
def keyCheckRows (table : String) (keys : List SchemaKeyRec) (rows : List (List V))
    (pos : Nat) (st : IdxState) : Res IdxState :=
  match rows with
  | [] => .ok st
  | r :: rest => do
    let st ← keyCheckRowKeys table keys r pos st
    keyCheckRows table keys rest (pos + 1) st

/-- The KEY phase (integrity.py:47-53): `tables.items()` in insertion
order; `keys_of[table]` raises `KeyError` for a table name not in the
schema. -/
def keyPhase (schema : Schema) (tables : List (String × List (List V)))
    (st : IdxState) : Res IdxState :=
  match tables with
  | [] => .ok st
  | (t, rows) :: rest =>
    if ¬ alContains schema.tables t then
      .error .keyError
    else do
      let st ← keyCheckRows t (keysOfTable schema t) rows 0 st
      keyPhase schema rest st

/-- One row against all foreign keys of its table (integrity.py:57-61). -/
def fkeyCheckRow (table : String) (fks : List (SchemaForeignKeyRec × List Nat × String))
    (row : List V) (st : IdxState) : Res Unit :=
  match fks with
  | [] => .ok ()
  | (fk, local_, keyname) :: rest => do
    let rk ← projRow row local_
    if ((idxLookup st keyname).find? (fun e => e.1 = rk)).isNone then
      .error (.integrityErrorFKey table row fk.name rk fk.reftable)
    else
      fkeyCheckRow table rest row st

def fkeyCheckRows (table : String) (fks : List (SchemaForeignKeyRec × List Nat × String))
    (rows : List (List V)) (st : IdxState) : Res Unit :=
  match rows with
  | [] => .ok ()
  | r :: rest => do
    fkeyCheckRow table fks r st
    fkeyCheckRows table fks rest st

/-- The REFERENCE phase (integrity.py:55-61): `sorted(tables.items())`. -/
def fkeyPhase (schema : Schema) (tables : List (String × List (List V)))
    (st : IdxState) : Res Unit :=
  match tables with
  | [] => .ok ()
  | (t, rows) :: rest =>
    if ¬ alContains schema.tables t then
      .error .keyError
    else do
      let fks ← fkeysOfTable schema t
      fkeyCheckRows t fks rows st
      fkeyPhase schema rest st

/-- `check_database_integrity(schema, tables)` (integrity.py:4-61):
the foreign-key setup runs first (it only looks at the schema), then the
KEY phase over `tables.items()`, then the REFERENCE phase over
`sorted(tables.items())`. -/
def check_database_integrity (schema : Schema)
    (tables : List (String × List (List V))) : Res Unit := do
  fkeySetup schema
  let st ← keyPhase schema tables []
  fkeyPhase schema (sortBy (fun a b => strLeB a.1 b.1) tables) st

/-! ### Specification-side helpers for the integrity characterization -/

/-- The row keys currently stored under one `idx` dict. -/
def entriesAt (st : IdxState) (n : String) : List (List V) :=
  (idxLookup st n).map Prod.fst

/-- The value of a projection known to succeed. -/
def projV (row : List V) (cols : List Nat) : List V :=
  match projRow row cols with
  | .ok rk => rk
  | .error _ => []

/-- Pair list elements with consecutive positions starting at `pos`. -/
def withPos : List (List V) → Nat → List (List V × Nat)
  | [], _ => []
  | x :: xs, pos => (x, pos) :: withPos xs (pos + 1)

/-- The rows of a named table in a database dict (empty when absent). -/
def refRowsOf (tables : List (String × List (List V))) (t : String) : List (List V) :=
  (alGet? tables t).getD []

/-- Soundness/completeness target, KEY half: for every table of the
database and every *declared* key on it, the projected sub-rows are
pairwise distinct. -/
def KeysOK (schema : Schema) (tables : List (String × List (List V))) : Prop :=
  ∀ p ∈ tables, ∀ k ∈ keysOfTable schema p.1,
    ((p.2).map (fun r => projV r k.columns)).Nodup

/-- Soundness/completeness target, REFERENCE half: every local projection
of every row appears among the referenced table's projections onto the
matched unique key's columns. -/
def FksOK (schema : Schema) (tables : List (String × List (List V))) : Prop :=
  ∀ p ∈ tables, ∀ fk ∈ schema.foreignkeys.map Prod.snd, fk.table = p.1 →
    ∀ l kn, resolveFkey (keysOfTable schema fk.reftable) fk = .ok (l, kn) →
    ∀ k' ∈ keysOfTable schema fk.reftable, k'.name = kn →
    ∀ row ∈ p.2, projV row l ∈
      (refRowsOf tables fk.reftable).map (fun r => projV r k'.columns)

/-! ### Built-in domain bundles and concrete schemas used by the claims -/

/-- `parse_ID_domain` (domain.py:67-77): the class carries only `decode`
and `encode`; there is no `wsllex`/`wslunlex` attribute. -/
def IDFuncs : DomainFuncs :=
  { decode? := some (fun t i => (ID_decode t i).map (fun p => (p.1, V.vstr p.2)))
    encode? := some (fun v => match v with
      | .vstr s => ID_encode s
      | .vint _ => .error (.typeError "ID_encode iterates over a non-string"))
    wsllex? := none, wslunlex? := none }

/-- `parse_Int_domain` (domain.py:94-100): only `decode` and `encode`. -/
def IntFuncs : DomainFuncs :=
  { decode? := some (fun t i => (Int_decode t i).map (fun p => (p.1, V.vint p.2)))
    encode? := some (fun v => match v with
      | .vint n => .ok (Int_encode n)
      | .vstr s => .ok s)
    wsllex? := none, wslunlex? := none }

/-- `parse_String_domain` without `escape` (domain.py:80-91): only `decode`
and `encode`. -/
def StringFuncs : DomainFuncs :=
  { decode? := some (fun t i => (String_decode_noescape t i).map (fun p => (p.1, V.vstr p.2)))
    encode? := some (fun v => match v with
      | .vstr s => String_encode_noescape s
      | .vint _ => .error (.typeError "String_encode iterates over a non-string"))
    wsllex? := none, wslunlex? := none }

def scDomains : List (String × SchemaDomainRec) :=
  [("ID", ⟨"ID", "ID ID", IDFuncs⟩), ("Int", ⟨"Int", "Int Int", IntFuncs⟩),
   ("String", ⟨"String", "String String", StringFuncs⟩)]

/-- The tables of spec §8 scenario 2: `Parent ID Int`, `Child ID String`. -/
def scTables : List (String × SchemaTableRec) :=
  [("Parent", ⟨"Parent", "Parent ID Int", ["ID", "Int"], []⟩),
   ("Child", ⟨"Child", "Child ID String", ["ID", "String"], []⟩)]

/-- The scenario-2 schema in the only form the code accepts: the REFERENCE
uses the variable `p` on both sides (wildcards elsewhere), and `Parent`
carries a declared unique key on its first column, which
`check_database_integrity` requires of every referenced table. -/
def schemaC5 : Schema :=
  { spec := "", domains := scDomains, tables := scTables
    keys := [("ParentKey", ⟨"ParentKey", "ParentKey Parent p *", "Parent", [0]⟩)]
    foreignkeys := [("ChildParent",
      ⟨"ChildParent", "Child p * => Parent p *", "Child", [0], "Parent", [0]⟩)] }

/-- Scenario-2 rows: `Parent (a,1),(b,2)`; `Child (a,"hi"),(z,"oops")`. -/
def tablesC5 : List (String × List (List V)) :=
  [("Parent", [[V.vstr "a", V.vint 1], [V.vstr "b", V.vint 2]]),
   ("Child", [[V.vstr "a", V.vstr "hi"], [V.vstr "z", V.vstr "oops"]])]

/-- The scenario-2 schema with no declared keys at all (the literal spec
text declares none). -/
def schemaC6 : Schema := { schemaC5 with keys := [] }

/-- A one-column table with no declared key and no foreign keys. -/
def schemaC2 : Schema :=
  { spec := "", domains := scDomains
    tables := [("T", ⟨"T", "T ID", ["ID"], []⟩)], keys := [], foreignkeys := [] }

/-- Scenario-2 rows with the violating Child row replaced, so that the
database satisfies all declared constraints. -/
def tablesC5ok : List (String × List (List V)) :=
  [("Parent", [[V.vstr "a", V.vint 1], [V.vstr "b", V.vint 2]]),
   ("Child", [[V.vstr "a", V.vstr "hi"], [V.vstr "b", V.vstr "bye"]])]

/-! ### wslh shape engine — data model (wsl/wslh/datatypes.py)

The Python `childs` dicts of `Option`/`Set`/`List`/`Dict` nodes always
carry exactly the reserved names (`_val_`, `_idx_`, `_key_`), which the
shape-spec parser enforces; they are represented here as direct fields.
`Struct` children keep their insertion-ordered dict.  The Python
attributes `variables` (of `Query`) and `variable` (of `Value`) are Lean
keywords and appear here as `varlist` and `varname`. -/

structure Query where
  freshvariables : List String
  table : String
  varlist : List String
  deriving DecidableEq, Repr

inductive Sp where
  | value (varname : String) (query : Option Query) (primtype : String)
  | struct (childs : List (String × Sp)) (query : Option Query)
  | option (val : Sp) (query : Query)
  | sset (val : Sp) (query : Query)
  | slist (idx : Sp) (val : Sp) (query : Query)
  | dict (key : Sp) (val : Sp) (query : Query)

/-- Python object trees handled by the shape engine: `None`, scalars,
dicts with string keys (structs), dicts with scalar keys, lists, sets.
Dict fields and set elements are kept in insertion order (Python dicts
are insertion-ordered; set contents are compared by membership only and
no claim depends on a set's iteration order). -/
inductive Obj where
  | onone
  | prim (v : V)
  | struct (fields : List (String × Obj))
  | odict (entries : List (Obj × Obj))
  | olist (items : List Obj)
  | oset (items : List Obj)

/-- Python `==` on object trees, fuel-bounded structural equality (the
wrapper `Obj.beq` supplies fuel strictly exceeding the tree depth, so
the `0` branch is never reached there).  Comparison of `struct`/`odict`
entry lists is positional, which coincides with Python dict equality
whenever both sides list their keys in the same order — true wherever
the development compares dicts. -/
def Obj.beqF : Nat → Obj → Obj → Bool
  | 0, _, _ => false
  | fuel + 1, a, b =>
    match a, b with
    | .onone, .onone => true
    | .prim x, .prim y => x = y
    | .struct fs, .struct gs =>
      fs.length = gs.length &&
        (fs.zip gs).all (fun p => p.1.1 = p.2.1 && Obj.beqF fuel p.1.2 p.2.2)
    | .odict es, .odict hs =>
      es.length = hs.length &&
        (es.zip hs).all (fun p =>
          Obj.beqF fuel p.1.1 p.2.1 && Obj.beqF fuel p.1.2 p.2.2)
    | .olist xs, .olist ys =>
      xs.length = ys.length && (xs.zip ys).all (fun p => Obj.beqF fuel p.1 p.2)
    | .oset xs, .oset ys =>
      xs.length = ys.length && (xs.zip ys).all (fun p => Obj.beqF fuel p.1 p.2)
    | _, _ => false

mutual

/-- Depth of an object tree (≥ 1), the fuel bound for `Obj.beqF`. -/
def Obj.depth : Obj → Nat
  | .onone => 1
  | .prim _ => 1
  | .struct fs => 1 + Obj.depthFields fs
  | .odict es => 1 + Obj.depthEntries es
  | .olist xs => 1 + Obj.depthItems xs
  | .oset xs => 1 + Obj.depthItems xs

/-- Maximal depth of the values of a field list. -/
def Obj.depthFields : List (String × Obj) → Nat
  | [] => 0
  | (_, v) :: r => max (Obj.depth v) (Obj.depthFields r)

/-- Maximal depth over the keys and values of a dict entry list. -/
def Obj.depthEntries : List (Obj × Obj) → Nat
  | [] => 0
  | (k, v) :: r => max (max (Obj.depth k) (Obj.depth v)) (Obj.depthEntries r)

/-- Maximal depth of a list of objects. -/
def Obj.depthItems : List Obj → Nat
  | [] => 0
  | x :: r => max (Obj.depth x) (Obj.depthItems r)

end

/-- Python `==` on object trees: `Obj.depth a` bounds the recursion
depth, so the fuel never runs out. -/
def Obj.beq (a b : Obj) : Bool := Obj.beqF (Obj.depth a) a b

abbrev DB := List (String × List (List V))

def pyEnumerate {α : Type} (l : List α) : List (Nat × α) :=
  (List.range l.length).zip l

/-- Python `list.index(x)`: position of the first occurrence, `ValueError`
when absent. -/
def pyIndex (l : List String) (x : String) : Res Nat :=
  match l with
  | [] => .error .indexNotFound
  | y :: rest =>
    if y = x then .ok 0
    else
      match pyIndex rest x with
      | .ok n => .ok (n + 1)
      | .error e => .error e

def pyIndexAll (l : List String) (xs : List String) : Res (List Nat) :=
  match xs with
  | [] => .ok []
  | x :: rest =>
    match pyIndex l x with
    | .ok n =>
      match pyIndexAll l rest with
      | .ok ns => .ok (n :: ns)
      | .error e => .error e
    | .error e => .error e

/-- `tuple(row[i] for i in ixs)` (IndexError when out of range). -/
def pickRow (row : List V) (ixs : List Nat) : Res (List V) :=
  match ixs with
  | [] => .ok []
  | i :: rest =>
    match row.get? i with
    | some v =>
      match pickRow row rest with
      | .ok vs => .ok (v :: vs)
      | .error e => .error e
    | none => .error .indexNotFound

/-- Assoc-list update with Python dict assignment semantics: an existing
key keeps its position, a new key is appended. -/
def dictAssign {κ α : Type} (eq : κ → κ → Bool) (l : List (κ × α)) (k : κ) (v : α) :
    List (κ × α) :=
  match l with
  | [] => [(k, v)]
  | (k0, v0) :: rest =>
    if eq k0 k then (k0, v) :: rest
    else (k0, v0) :: dictAssign eq rest k v

def assocFindV {α : Type} (l : List (List V × α)) (k : List V) : Option α :=
  match l.find? (fun e => e.1 = k) with
  | some e => some e.2
  | none => none

/-! ### rows2objects (wsl/wslh/rows2objects.py)

The Python engine threads mutable accumulator objects through
`find_child_rows` purely as identity tokens used to group result pairs by
parent; the embedding replaces them by the parent's position (`Nat`), and
each composite node groups its child pairs by that position.  All other
data flow is as in the source. -/

/-- `freshidxs = tuple(i for i, v in enumerate(query.variables) if v in
query.freshvariables)` (rows2objects.py:7). -/
def fcrFreshIdxs (query : Query) : List Nat :=
  (pyEnumerate query.varlist).filterMap
    (fun p => if p.2 ∈ query.freshvariables then some p.1 else none)

/-- `fkeyvars = [v for v in query.variables if v not in query.freshvariables]`
(rows2objects.py:8). -/
def fcrFkeyVars (query : Query) : List String :=
  query.varlist.filter (fun v => v ∉ query.freshvariables)

/-- `fkey_local = tuple(query.variables.index(v) for v in fkeyvars)`. -/
def fcrFkeyLocal (query : Query) : Res (List Nat) :=
  pyIndexAll query.varlist (fcrFkeyVars query)

/-- `fkey_foreign = tuple(cols.index(v) for v in fkeyvars)` — raises
`ValueError` when a non-fresh variable is not bound in the enclosing
scope. -/
def fcrFkeyForeign (query : Query) (cols : List String) : Res (List Nat) :=
  pyIndexAll cols (fcrFkeyVars query)

/-- `index[key] = row, obj, []` over `zip(rows, objs)`: later parents with
an equal key overwrite earlier ones (dict assignment).  The third `[]`
component is only ever mutated, never read by any caller, and is
omitted. -/
def fcrBuildIndex (fkeyForeign : List Nat) :
    List (List V) → List Nat → Res (List (List V × (List V × Nat)))
  | [], _ => .ok []
  | _, [] => .ok []
  | row :: rows, obj :: objs =>
    match pickRow row fkeyForeign with
    | .ok key =>
      match fcrBuildIndex fkeyForeign rows objs with
      | .ok idx => .ok (dictAssign (fun a b => a = b) idx key (row, obj))
      | .error e => .error e
    | .error e => .error e

/-- The loop over `database[query.table]` (rows2objects.py:22-28): each
child row's key is looked up in `index`; a missing key is a raw Python
`KeyError`. -/
def fcrLoop (index : List (List V × (List V × Nat))) (fkeyLocal freshIdxs : List Nat) :
    List (List V) → Res (List (List V) × List Nat)
  | [] => .ok ([], [])
  | row :: rows => do
    let key ← pickRow row fkeyLocal
    match assocFindV index key with
    | some fr => do
      let fresh ← pickRow row freshIdxs
      let nr ← fcrLoop index fkeyLocal freshIdxs rows
      pure ((fr.1 ++ fresh) :: nr.1, fr.2 :: nr.2)
    | none => .error .keyError

/-- `find_child_rows(cols, rows, objs, query, database)`
(rows2objects.py:4-30), with objects as parent positions.
`database[query.table]` on an absent table is also a raw `KeyError`. -/
def find_child_rows (cols : List String) (rows : List (List V)) (objs : List Nat)
    (query : Query) (database : DB) :
    Res (List String × List (List V) × List Nat) := do
  let fkeyLocal ← fcrFkeyLocal query
  let fkeyForeign ← fcrFkeyForeign query cols
  let index ← fcrBuildIndex fkeyForeign rows objs
  let tblRows ←
    match alGet? database query.table with
    | some r => pure r
    | none => .error .keyError
  let nr ← fcrLoop index fkeyLocal (fcrFreshIdxs query) tblRows
  pure (cols ++ query.freshvariables, nr.1, nr.2)

/-- Overwrite-update a position of a list (Python `xs[i] = v`). -/
def listSet {α : Type} : List α → Nat → α → List α
  | [], _, _ => []
  | _ :: rest, 0, v => v :: rest
  | x :: rest, n + 1, v => x :: listSet rest n v

/-- Python set `add` (by `==`), insertion-ordered model. -/
def setAdd (s : List Obj) (x : Obj) : List Obj :=
  if s.any (fun y => Obj.beq y x) then s else s ++ [x]

/-- Comparison used by `sorted(lst)` in `list2objects`: the `(idx, val)`
pairs are compared on `idx`, a scalar from the `_idx_` child; equal
indices would make Python compare the values (and possibly raise), which
no claim exercises — the sort is stable, preserving their order. -/
def idxPairLe (a b : Obj × Obj) : Bool :=
  match a.1, b.1 with
  | .prim x, .prim y =>
    match V.cmp x y with
    | .gt => false
    | _ => true
  | _, _ => true

/-- `value2objects` result pairs: the bound column value per object. -/
def value2pairs (rows : List (List V)) (objs : List Nat) (idx : Nat) :
    Res (List (Nat × Obj)) :=
  match rows, objs with
  | [], _ => .ok []
  | _, [] => .ok []
  | row :: rows, obj :: objs =>
    match row.get? idx with
    | some v =>
      match value2pairs rows objs idx with
      | .ok pairs => .ok ((obj, Obj.prim v) :: pairs)
      | .error e => .error e
    | none => .error .indexNotFound

/-- `values[i] = val` accumulation of `option2objects`: the last pair for
a parent wins; parents without a pair keep `None`. -/
def fillValues (pairs : List (Nat × Obj)) (i : Nat) : Obj :=
  List.foldl (fun acc q => if q.1 = i then q.2 else acc) Obj.onone pairs

/-- `struct[key] = val` where an existing key keeps its position. -/
def dictAssignFront (l : List (String × Obj)) (k : String) (v : Obj) :
    List (String × Obj) :=
  dictAssign (fun a b => a = b) l k v

mutual

/-- `any2objects` (rows2objects.py:114-138), returning `(parent position,
object)` pairs. -/
def any2objects (cols : List String) (rows : List (List V)) (objs : List Nat)
    (spec : Sp) (database : DB) : Res (List (Nat × Obj)) :=
  match spec with
  | .value varname query _ =>
    -- value2objects (rows2objects.py:33-40)
    match query with
    | some q =>
      match find_child_rows cols rows objs q database with
      | .ok r =>
        match pyIndex r.1 varname with
        | .ok idx => value2pairs r.2.1 r.2.2 idx
        | .error e => .error e
      | .error e => .error e
    | none =>
      match pyIndex cols varname with
      | .ok idx => value2pairs rows objs idx
      | .error e => .error e
  | .struct childs _ =>
    -- struct2objects (rows2objects.py:43-55): children are evaluated over
    -- fresh position ids, then attached per parent by position.
    match struct2fields cols rows objs.length childs
        (objs.map (fun _ => [])) database with
    | .ok structs =>
      .ok ((pyEnumerate objs).map (fun p =>
        (p.2, Obj.struct (structs.getD p.1 []))))
    | .error e => .error e
  | .option vspec query =>
    -- option2objects (rows2objects.py:58-68)
    match find_child_rows cols rows (List.range objs.length) query database with
    | .ok r =>
      match any2objects r.1 r.2.1 r.2.2 vspec database with
      | .ok pairs =>
        .ok ((pyEnumerate objs).map (fun p => (p.2, fillValues pairs p.1)))
      | .error e => .error e
    | .error e => .error e
  | .sset vspec query =>
    -- set2objects (rows2objects.py:71-81)
    match find_child_rows cols rows (List.range objs.length) query database with
    | .ok r =>
      match any2objects r.1 r.2.1 r.2.2 vspec database with
      | .ok pairs =>
        .ok ((pyEnumerate objs).map (fun p =>
          (p.2, Obj.oset (List.foldl (fun acc q =>
            if q.1 = p.1 then setAdd acc q.2 else acc) [] pairs))))
      | .error e => .error e
    | .error e => .error e
  | .slist ispec vspec query =>
    -- list2objects (rows2objects.py:84-96)
    match find_child_rows cols rows (List.range objs.length) query database with
    | .ok r =>
      match any2objects r.1 r.2.1 r.2.2 ispec database with
      | .ok idxpairs =>
        match any2objects r.1 r.2.1 r.2.2 vspec database with
        | .ok valpairs =>
          if idxpairs.length ≠ valpairs.length then .error .assertionError
          else if (idxpairs.zip valpairs).any (fun q => q.1.1 ≠ q.2.1) then
            .error .assertionError
          else
            .ok ((pyEnumerate objs).map (fun p =>
              (p.2, Obj.olist ((sortBy idxPairLe
                ((idxpairs.zip valpairs).filterMap (fun q =>
                  if q.1.1 = p.1 then some (q.1.2, q.2.2) else none))).map
                Prod.snd))))
        | .error e => .error e
      | .error e => .error e
    | .error e => .error e
  | .dict kspec vspec query =>
    -- dict2objects (rows2objects.py:99-111); `dct1[key] = val` silently
    -- overwrites an existing key.
    match find_child_rows cols rows (List.range objs.length) query database with
    | .ok r =>
      match any2objects r.1 r.2.1 r.2.2 kspec database with
      | .ok keypairs =>
        match any2objects r.1 r.2.1 r.2.2 vspec database with
        | .ok valpairs =>
          if keypairs.length ≠ valpairs.length then .error .assertionError
          else if (keypairs.zip valpairs).any (fun q => q.1.1 ≠ q.2.1) then
            .error .assertionError
          else
            .ok ((pyEnumerate objs).map (fun p =>
              (p.2, Obj.odict (List.foldl (fun acc q =>
                if q.1.1 = p.1 then dictAssign Obj.beq acc q.1.2 q.2.2
                else acc) [] (keypairs.zip valpairs)))))
        | .error e => .error e
      | .error e => .error e
    | .error e => .error e

/-- The per-child loop of `struct2objects`, in declaration order: each
child is evaluated over positions `0..n-1` and its pairs assigned into
the per-parent field dicts. -/
def struct2fields (cols : List String) (rows : List (List V)) (n : Nat)
    (childs : List (String × Sp)) (structs : List (List (String × Obj)))
    (database : DB) : Res (List (List (String × Obj))) :=
  match childs with
  | [] => .ok structs
  | (key, child) :: rest =>
    match any2objects cols rows (List.range n) child database with
    | .ok pairs =>
      struct2fields cols rows n rest
        (List.foldl (fun acc q =>
          listSet acc q.1 (dictAssignFront (acc.getD q.1 []) key q.2)) structs pairs)
        database
    | .error e => .error e

end

/-- `rows2objects(schema, spec, database)` (rows2objects.py:141-151): one
top-level `None` object; the destructuring `[(topobj, subobj)] = ...`
raises `ValueError` unless exactly one pair results. -/
def rows2objects (spec : Sp) (database : DB) : Res Obj :=
  match any2objects [] [[]] [0] spec database with
  | .ok [(_, sub)] => .ok sub
  | .ok _ => .error (.valueError "cannot unpack result list")
  | .error e => .error e

/-! ### objects2rows (wsl/wslh/objects2rows.py)

`Settable` write-once cells live in an explicit store (`List (Option V)`,
indexed by allocation order); a row under construction is a list of cell
ids.  `add_rows` snapshots current cell contents (`None` for never-set
cells, as in Python). -/

abbrev Store := List (Option V)

abbrev WDB := List (String × List (List (Option V)))

/-- Allocate `n` fresh unset cells (`tuple(Settable() for _ in ...)`). -/
def allocCells (store : Store) (n : Nat) : Store × List Nat :=
  (store ++ List.replicate n none,
   (List.range n).map (fun i => store.length + i))

/-- `Settable.set` (objects2rows.py:14-17): a second set must agree with
the first or `ValueError` is raised. -/
def settableSet (store : Store) (cid : Nat) (x : V) : Res Store :=
  match store.get? cid with
  | some none => .ok (listSet store cid (some x))
  | some (some y) =>
    if y ≠ x then .error (.valueErrorSettableConflict y x)
    else .ok (listSet store cid (some x))
  | none => .error .assertionError

/-- `Settable.get`: the stored value, `None` when never set. -/
def cellGet (store : Store) (cid : Nat) : Option V :=
  (store.get? cid).getD none

/-- `table = database.setdefault(query.table, []); table.append(...)`. -/
def dbAppend (db : WDB) (table : String) (newRows : List (List (Option V))) : WDB :=
  if alContains db table then
    db.map (fun p => if p.1 = table then (p.1, p.2 ++ newRows) else p)
  else
    db ++ [(table, newRows)]

/-- One appended row: `tuple(row[i].get() for i in key)`. -/
def addRowsSnap (store : Store) (key : List Nat) (row : List Nat) :
    Res (List (Option V)) :=
  match key with
  | [] => .ok []
  | i :: rest =>
    match row.get? i with
    | some cid =>
      match addRowsSnap store rest row with
      | .ok vs => .ok (cellGet store cid :: vs)
      | .error e => .error e
    | none => .error .indexNotFound

def addRowsSnaps (store : Store) (key : List Nat) :
    List (List Nat) → Res (List (List (Option V)))
  | [] => .ok []
  | row :: rows =>
    match addRowsSnap store key row with
    | .ok snap =>
      match addRowsSnaps store key rows with
      | .ok snaps => .ok (snap :: snaps)
      | .error e => .error e
    | .error e => .error e

/-- `add_rows(query, cols, rows, database)` (objects2rows.py:23-27). -/
def add_rows (query : Query) (cols : List String) (rows : List (List Nat))
    (store : Store) (db : WDB) : Res WDB := do
  let key ← pyIndexAll cols query.varlist
  let snaps ← addRowsSnaps store key rows
  pure (dbAppend db query.table snaps)

/-- The `if obj is not None` row-extension loop shared by `value2rows`
(query case) and `option2rows`: each surviving object gets its row
extended by fresh cells for the query's fresh variables. -/
def extendRows (nfresh : Nat) :
    List (List Nat) → List Obj → Store → (Store × List (List Nat) × List Obj)
  | [], _, store => (store, [], [])
  | _, [], store => (store, [], [])
  | row :: rows, obj :: objs, store =>
    match obj with
    | .onone =>
      extendRows nfresh rows objs store
    | _ =>
      match allocCells store nfresh with
      | (store1, fresh) =>
        match extendRows nfresh rows objs store1 with
        | (store2, nextrows, nextobjs) =>
          (store2, (row ++ fresh) :: nextrows, obj :: nextobjs)

/-- `nextrow[idx].set(nextobj)` over all rows (value2rows, lines 44-45).
A non-scalar object stored into a cell would flow into `add_rows` rows
and break sorting; the engine is only ever applied to schema-typed
objects, so a non-scalar here is modeled as `TypeError`. -/
def setValueCells (idx : Nat) :
    List (List Nat) → List Obj → Store → Res Store
  | [], _, store => .ok store
  | _, [], store => .ok store
  | row :: rows, obj :: objs, store =>
    match row.get? idx with
    | some cid =>
      match obj with
      | .prim v =>
        match settableSet store cid v with
        | .ok store1 => setValueCells idx rows objs store1
        | .error e => .error e
      | _ => .error (.typeError "relational value is not a scalar")
    | none => .error .indexNotFound

/-- One parent's elements: one extended row per element. -/
def flattenItems (nfresh : Nat) (row : List Nat) :
    List Obj → Store → (Store × List (List Nat) × List Obj)
  | [], store => (store, [], [])
  | item :: items, store =>
    match allocCells store nfresh with
    | (store1, fresh) =>
      match flattenItems nfresh row items store1 with
      | (store2, exrows, exobjs) =>
        (store2, (row ++ fresh) :: exrows, item :: exobjs)

/-- Per-object flattening loops of `set2rows`/`list2rows`/`dict2rows`:
extend each parent row once per element.  Returns the extended rows plus
the element objects (and index/key objects where applicable). -/
def flattenSet (nfresh : Nat) :
    List (List Nat) → List Obj → Store → Res (Store × List (List Nat) × List Obj)
  | [], _, store => .ok (store, [], [])
  | _, [], store => .ok (store, [], [])
  | row :: rows, obj :: objs, store =>
    match obj with
    | .oset items =>
      match flattenItems nfresh row items store with
      | (store1, exrows, exobjs) =>
        match flattenSet nfresh rows objs store1 with
        | .ok (store2, nextrows, nextobjs) =>
          .ok (store2, exrows ++ nextrows, exobjs ++ nextobjs)
        | .error e => .error e
    | _ => .error (.typeError "set expected")

def flattenList (nfresh : Nat) :
    List (List Nat) → List Obj → Store →
      Res (Store × List (List Nat) × List Obj × List Obj)
  | [], _, store => .ok (store, [], [], [])
  | _, [], store => .ok (store, [], [], [])
  | row :: rows, obj :: objs, store =>
    match obj with
    | .olist items =>
      match flattenItems nfresh row items store with
      | (store1, exrows, exobjs) =>
        match flattenList nfresh rows objs store1 with
        | .ok (store2, nextrows, idxs, vals) =>
          .ok (store2, exrows ++ nextrows,
            (pyEnumerate items).map (fun p => Obj.prim (V.vint p.1)) ++ idxs,
            exobjs ++ vals)
        | .error e => .error e
    | _ => .error (.valueError "list expected")

def flattenDict (nfresh : Nat) :
    List (List Nat) → List Obj → Store →
      Res (Store × List (List Nat) × List Obj × List Obj)
  | [], _, store => .ok (store, [], [], [])
  | _, [], store => .ok (store, [], [], [])
  | row :: rows, obj :: objs, store =>
    match obj with
    | .odict entries =>
      match flattenItems nfresh row (entries.map Prod.snd) store with
      | (store1, exrows, exvals) =>
        match flattenDict nfresh rows objs store1 with
        | .ok (store2, nextrows, keys, vals) =>
          .ok (store2, exrows ++ nextrows,
            entries.map Prod.fst ++ keys, exvals ++ vals)
        | .error e => .error e
    | _ => .error (.typeError "dict expected")

def structMemberRow (childs : List (String × Sp)) (fields : List (String × Obj)) :
    Res (List Obj) :=
  match childs with
  | [] => .ok []
  | (key, _) :: rest =>
    match alGet? fields key with
    | some v =>
      match structMemberRow rest fields with
      | .ok vs => .ok (v :: vs)
      | .error e => .error e
    | none => .error (.valueError "Expected member but got object without it")

/-- The member-extraction loop of `struct2rows` (objects2rows.py:53-59):
every object must be a dict carrying every declared member; the per-child
object lists are collected before any recursion. -/
def structMembers (childs : List (String × Sp)) :
    List Obj → Res (List (List Obj))
  | [] => .ok (childs.map (fun _ => []))
  | obj :: objs =>
    match obj with
    | .onone => .error .assertionError
    | .struct fields =>
      match structMemberRow childs fields with
      | .ok vals =>
        match structMembers childs objs with
        | .ok rest => .ok ((vals.zip rest).map (fun p => p.1 :: p.2))
        | .error e => .error e
      | .error e => .error e
    | _ => .error (.typeError "argument of type is not iterable")

mutual

/-- `any2rows` (objects2rows.py:121-145). -/
def any2rows (cols : List String) (rows : List (List Nat)) (objs : List Obj)
    (spec : Sp) (store : Store) (db : WDB) : Res (Store × WDB) :=
  match spec with
  | .value varname query _ =>
    -- value2rows (objects2rows.py:30-47)
    match query with
    | some q =>
      match extendRows q.freshvariables.length rows objs store with
      | (store1, nextrows, nextobjs) =>
        match pyIndex (cols ++ q.freshvariables) varname with
        | .ok idx =>
          match setValueCells idx nextrows nextobjs store1 with
          | .ok store2 =>
            match add_rows q (cols ++ q.freshvariables) nextrows store2 db with
            | .ok db1 => .ok (store2, db1)
            | .error e => .error e
          | .error e => .error e
        | .error e => .error e
    | none =>
      match pyIndex cols varname with
      | .ok idx =>
        match setValueCells idx rows objs store with
        | .ok store1 => .ok (store1, db)
        | .error e => .error e
      | .error e => .error e
  | .struct childs _ =>
    -- struct2rows (objects2rows.py:50-61)
    match structMembers childs objs with
    | .ok childObjs => struct2rowsGo cols rows childs childObjs store db
    | .error e => .error e
  | .option vspec query =>
    -- option2rows (objects2rows.py:64-75)
    match extendRows query.freshvariables.length rows objs store with
    | (store1, nextrows, nextobjs) =>
      match any2rows (cols ++ query.freshvariables) nextrows nextobjs vspec
          store1 db with
      | .ok (store2, db1) =>
        match add_rows query (cols ++ query.freshvariables) nextrows store2 db1 with
        | .ok db2 => .ok (store2, db2)
        | .error e => .error e
      | .error e => .error e
  | .sset vspec query =>
    -- set2rows (objects2rows.py:78-88)
    match flattenSet query.freshvariables.length rows objs store with
    | .ok (store1, nextrows, nextvals) =>
      match any2rows (cols ++ query.freshvariables) nextrows nextvals vspec
          store1 db with
      | .ok (store2, db1) =>
        match add_rows query (cols ++ query.freshvariables) nextrows store2 db1 with
        | .ok db2 => .ok (store2, db2)
        | .error e => .error e
      | .error e => .error e
    | .error e => .error e
  | .slist ispec vspec query =>
    -- list2rows (objects2rows.py:91-103)
    match flattenList query.freshvariables.length rows objs store with
    | .ok (store1, nextrows, idxObjs, valObjs) =>
      match any2rows (cols ++ query.freshvariables) nextrows idxObjs ispec
          store1 db with
      | .ok (store2, db1) =>
        match any2rows (cols ++ query.freshvariables) nextrows valObjs vspec
            store2 db1 with
        | .ok (store3, db2) =>
          match add_rows query (cols ++ query.freshvariables) nextrows store3 db2 with
          | .ok db3 => .ok (store3, db3)
          | .error e => .error e
        | .error e => .error e
      | .error e => .error e
    | .error e => .error e
  | .dict kspec vspec query =>
    -- dict2rows (objects2rows.py:106-118)
    match flattenDict query.freshvariables.length rows objs store with
    | .ok (store1, nextrows, keyObjs, valObjs) =>
      match any2rows (cols ++ query.freshvariables) nextrows keyObjs kspec
          store1 db with
      | .ok (store2, db1) =>
        match any2rows (cols ++ query.freshvariables) nextrows valObjs vspec
            store2 db1 with
        | .ok (store3, db2) =>
          match add_rows query (cols ++ query.freshvariables) nextrows store3 db2 with
          | .ok db3 => .ok (store3, db3)
          | .error e => .error e
        | .error e => .error e
      | .error e => .error e
    | .error e => .error e

/-- The per-child recursion of `struct2rows`. -/
def struct2rowsGo (cols : List String) (rows : List (List Nat))
    (childs : List (String × Sp)) (childObjs : List (List Obj))
    (store : Store) (db : WDB) : Res (Store × WDB) :=
  match childs, childObjs with
  | [], _ => .ok (store, db)
  | _, [] => .ok (store, db)
  | (_, cspec) :: restChilds, objsHere :: restObjs =>
    match any2rows cols rows objsHere cspec store db with
    | .ok (store1, db1) => struct2rowsGo cols rows restChilds restObjs store1 db1
    | .error e => .error e

end

/-- Comparison of database rows containing possibly-unset cells, used by
the final `table.sort()`; `None` is ordered first (Python would raise
comparing `None`, which no claim exercises — all cells are set there). -/
def optRowLe (a b : List (Option V)) : Bool :=
  match a, b with
  | [], [] => true
  | [], _ :: _ => true
  | _ :: _, [] => false
  | x :: xs, y :: ys =>
    match x, y with
    | none, none => optRowLe xs ys
    | none, some _ => true
    | some _, none => false
    | some v, some w =>
      match V.cmp v w with
      | .lt => true
      | .gt => false
      | .eq => optRowLe xs ys

/-- `objects2rows(schema, spec, objs)` (objects2rows.py:148-159): run the
traversal from a single top object, then sort every table. -/
def objects2rows (spec : Sp) (objs : Obj) : Res WDB :=
  match any2rows [] [[]] [objs] spec [] [] with
  | .ok r => .ok (r.2.map (fun p => (p.1, sortBy optRowLe p.2)))
  | .error e => .error e

/-! ### Concrete shapes and databases for claims C3, C7, C10 -/

/-- Convert a parsed database to the value shape produced by
`objects2rows` (whose rows snapshot write-once cells, all set here). -/
def dbToW (db : DB) : WDB :=
  db.map (fun p => (p.1, p.2.map (fun r => r.map some)))

/-- The shape spec of spec §8 scenario 3 (also wslh/tests/tests.py):
a dict of structs with an optional joined sub-struct. -/
def scen3Spec : Sp :=
  .struct [("bars", .dict
    (.value "c" none "Int")
    (.struct [
      ("c", .value "c" none "Int"),
      ("d", .value "d" none "Int"),
      ("s", .option
        (.struct [("a", .value "a" none "Int"), ("b", .value "b" none "Int")] none)
        ⟨["a", "b"], "foo", ["a", "b", "c"]⟩)] none)
    ⟨["c", "d"], "bar", ["c", "d"]⟩)] none

def vI (n : Int) : V := V.vint n

/-- Scenario-3 tables: `foo` (3 columns) and `bar` (2 columns). -/
def scen3DB : DB :=
  [("foo", [[vI 1, vI 2, vI 3], [vI 4, vI 5, vI 6]]),
   ("bar", [[vI 3, vI 666], [vI 6, vI 1024], [vI 42, vI 0]])]

/-- The object tree the spec expects from scenario 3. -/
def scen3Obj : Obj :=
  .struct [("bars", .odict [
    (.prim (vI 3), .struct [("c", .prim (vI 3)), ("d", .prim (vI 666)),
      ("s", .struct [("a", .prim (vI 1)), ("b", .prim (vI 2))])]),
    (.prim (vI 6), .struct [("c", .prim (vI 6)), ("d", .prim (vI 1024)),
      ("s", .struct [("a", .prim (vI 4)), ("b", .prim (vI 5))])]),
    (.prim (vI 42), .struct [("c", .prim (vI 42)), ("d", .prim (vI 0)),
      ("s", Obj.onone)])])]

/-- A coverage-total, injective list shape: `list for (i v) (T i v)` with
`_idx_: value i` and `_val_: value v`. -/
def listSpec : Sp :=
  .slist (.value "i" none "Int") (.value "v" none "Int") ⟨["i", "v"], "T", ["i", "v"]⟩

/-- A database for `listSpec` whose single row carries list index 5. -/
def listDB : DB := [("T", [[vI 5, vI 7]])]

/-- A shape using the variable `v` in two subtrees of one scope:
`option for (v) (T v)` of a struct whose two members both denote `v`. -/
def specC7 : Sp :=
  .option (.struct [("x", .value "v" none "Int"), ("y", .value "v" none "Int")] none)
    ⟨["v"], "T", ["v"]⟩

/-- Python `result == expected` for an object-valued call that is expected
to succeed (`Obj.beq` is Python `==`; an error compares unequal). -/
def resObjEq (r : Res Obj) (o : Obj) : Bool :=
  match r with
  | .ok x => Obj.beq x o
  | .error _ => false

/-- The selection of a successful `pickRow`. -/
def pickV (row : List V) (ixs : List Nat) : List V :=
  match pickRow row ixs with
  | .ok vs => vs
  | .error _ => []

/-! ### objects2text (wsl/wslh/objects2text.py)

The writers built by `make_writer_from_spec` are closures; they are
represented by the closure tree `WTree`, interpreted by `wtreeWriteF`.
Primitive formatters receive the raw Python value stored in the object
tree, i.e. an `Obj` leaf. -/

/-- `format_int(data)` (objects2text.py:9-12): `str(data)` after
`assert isinstance(data, int)`. -/
def format_int (data : Obj) : Res String :=
  match data with
  | .prim (.vint n) => .ok (Int_encode n)
  | _ => .error .assertionError

/-- The writer closure tree built by `make_writer_from_spec`
(objects2text.py:100-131). -/
inductive WTree where
  | wvalue (primformatter : Obj → Res String)
  | wstruct (items : List (String × WTree)) (indent : Nat)
  | woption (wval : WTree)
  | wlist (wval : WTree) (indent : Nat)
  | wdict (wkey wval : WTree) (indent : Nat)

mutual

/-- Depth of a writer tree (≥ 1): the recursion-depth bound used as fuel
by `wtreeWriteF`. -/
def WTree.depth : WTree → Nat
  | .wvalue _ => 1
  | .wstruct items _ => 1 + WTree.depthItems items
  | .woption w => 1 + WTree.depth w
  | .wlist w _ => 1 + WTree.depth w
  | .wdict k v _ => 1 + max (WTree.depth k) (WTree.depth v)

/-- Maximal depth of the writers of a sorted struct item list. -/
def WTree.depthItems : List (String × WTree) → Nat
  | [] => 0
  | (_, w) :: r => max (WTree.depth w) (WTree.depthItems r)

end

mutual

/-- `make_writer_from_spec(lookup_primformatter, spec, indent)`
(objects2text.py:100-131).  `INDENTSPACES = 4`.  A `Value` whose
formatter lookup returns `None` raises `ValueError`; a `Set` spec hits
the missing-case `assert False` on line 131.  The `Option` child writer
is built at the same indent (line 119); `List`/`Dict` children at
`indent + 4`. -/
def make_writer_from_spec (lookup : String → Option (Obj → Res String)) :
    Sp → Nat → Res WTree
  | .value _ _ primtype, _ =>
    match lookup primtype with
    | none =>
      .error (.valueError ("There is no formatter for datatype \"" ++ primtype ++ "\""))
    | some f => .ok (.wvalue f)
  | .struct childs _, indent =>
    match mwfsChilds lookup childs (indent + 4) with
    | .error e => .error e
    | .ok dct => .ok (.wstruct (sortBy (fun a b => strLeB a.1 b.1) dct) indent)
  | .option vspec _, indent =>
    match make_writer_from_spec lookup vspec indent with
    | .error e => .error e
    | .ok w => .ok (.woption w)
  | .sset _ _, _ => .error .assertionError
  | .slist _ vspec _, indent =>
    match make_writer_from_spec lookup vspec (indent + 4) with
    | .error e => .error e
    | .ok w => .ok (.wlist w indent)
  | .dict kspec vspec _, indent =>
    match make_writer_from_spec lookup kspec (indent + 4) with
    | .error e => .error e
    | .ok wk =>
      match make_writer_from_spec lookup vspec (indent + 4) with
      | .error e => .error e
      | .ok wv => .ok (.wdict wk wv indent)

/-- The `for k, v in spec.childs.items()` loop of the `Struct` case
(objects2text.py:111-113), in insertion order; `make_struct_writer`
sorts the finished dict afterwards. -/
def mwfsChilds (lookup : String → Option (Obj → Res String)) :
    List (String × Sp) → Nat → Res (List (String × WTree))
  | [], _ => .ok []
  | (k, v) :: rest, nextindent =>
    match make_writer_from_spec lookup v nextindent with
    | .error e => .error e
    | .ok w =>
      match mwfsChilds lookup rest nextindent with
      | .error e => .error e
      | .ok ws => .ok ((k, w) :: ws)

end

def indentStr (n : Nat) : String := String.mk (List.replicate n ' ')

/-- Bool-valued list-prefix test on character lists. -/
def listPrefixOf : List Char → List Char → Bool
  | [], _ => true
  | _ :: _, [] => false
  | a :: as, b :: bs => a = b && listPrefixOf as bs

/-- Helper scan for `strContains`. -/
def strContainsGo (needle : List Char) : List Char → Bool
  | [] => listPrefixOf needle []
  | c :: rest => listPrefixOf needle (c :: rest) || strContainsGo needle rest

/-- Python `needle in hay` on strings (substring containment). -/
def strContains (hay needle : String) : Bool :=
  strContainsGo needle.data hay.data

/-- `if key not in data: raise ValueError(...); val = data[key]`
(objects2text.py:58-60) under Python dynamic semantics: a struct is a
dict with string keys; `in` on a dict checks keys, on a list/set checks
elements, on a string checks substrings, and on `None`/an `int` raises
`TypeError`; the subsequent subscript on a list or string with a string
index raises `TypeError`. -/
def structMemberLookup (data : Obj) (key : String) : Res Obj :=
  match data with
  | .struct fields =>
    match alGet? fields key with
    | some v => .ok v
    | none => .error (.valueError ("Missing field \"" ++ key ++ "\"\n"))
  | .odict entries =>
    match entries.find? (fun p => Obj.beq p.1 (Obj.prim (V.vstr key))) with
    | some p => .ok p.2
    | none => .error (.valueError ("Missing field \"" ++ key ++ "\"\n"))
  | .olist items =>
    if items.any (fun o => Obj.beq o (Obj.prim (V.vstr key))) then
      .error (.typeErrorBuiltin "list indices must be integers")
    else .error (.valueError ("Missing field \"" ++ key ++ "\"\n"))
  | .oset items =>
    if items.any (fun o => Obj.beq o (Obj.prim (V.vstr key))) then
      .error (.typeErrorBuiltin "set object is not subscriptable")
    else .error (.valueError ("Missing field \"" ++ key ++ "\"\n"))
  | .prim (.vstr s) =>
    if strContains s key then
      .error (.typeErrorBuiltin "string indices must be integers")
    else .error (.valueError ("Missing field \"" ++ key ++ "\"\n"))
  | .prim (.vint _) =>
    .error (.typeErrorBuiltin "argument of type int is not iterable")
  | .onone =>
    .error (.typeErrorBuiltin "argument of type NoneType is not iterable")

/-- `sorted(data.items())` in `write_dict` (objects2text.py:92): only an
object with `.items()` qualifies (a parsed dict, or a struct, which is a
Python dict with string keys); Python tuple comparison compares the
(distinct) keys, so with two or more entries the keys must be mutually
comparable primitives, while zero or one entry is returned without any
comparison. -/
def dictItemsSorted (data : Obj) : Res (List (Obj × Obj)) :=
  match data with
  | .struct fields =>
    .ok ((sortBy (fun a b => strLeB a.1 b.1) fields).map
      (fun p => (Obj.prim (V.vstr p.1), p.2)))
  | .odict entries =>
    match entries with
    | [] => .ok []
    | [e] => .ok [e]
    | _ =>
      if entries.all (fun p => match p.1 with | .prim (.vint _) => true | _ => false) then
        .ok (sortBy (fun a b =>
          match a.1, b.1 with
          | .prim (.vint m), .prim (.vint n) => m ≤ n
          | _, _ => true) entries)
      else if entries.all (fun p => match p.1 with | .prim (.vstr _) => true | _ => false) then
        .ok (sortBy (fun a b =>
          match a.1, b.1 with
          | .prim (.vstr m), .prim (.vstr n) => strLeB m n
          | _, _ => true) entries)
      else
        .error (.typeErrorBuiltin "dict keys are not mutually comparable")
  | _ => .error (.attributeError "items")

/-- The writer interpreter: one step of fuel per descent into a child
writer, so `WTree.depth` bounds the fuel needed and the `0` case is
unreachable from `objects2text`.  `write_struct` (objects2text.py:55-64)
emits `indent + key` before validating membership, appends a newline
after each member iff `indent == 0`; `write_option` (68-74) emits
` ?\n`/` !\n`; `write_list` (79-86) demands a Python `list`, emits `\n`
and then `indent + "value"` plus the member rendering per element;
`write_dict` (91-97) iterates the sorted items emitting `\n`,
`indent + "value"`, the key rendering and the value rendering. -/
def wtreeWriteF : Nat → WTree → Obj → Res String
  | 0, _, _ => .error .assertionError
  | fuel + 1, w, data =>
    match w with
    | .wvalue fmt =>
      match fmt data with
      | .error e => .error e
      | .ok s => .ok (" " ++ s ++ "\n")
    | .wstruct items indent =>
      items.foldl (fun acc kv =>
        match acc with
        | .error e => .error e
        | .ok out =>
          match structMemberLookup data kv.1 with
          | .error e => .error e
          | .ok val =>
            match wtreeWriteF fuel kv.2 val with
            | .error e => .error e
            | .ok s =>
              .ok (out ++ indentStr indent ++ kv.1 ++ s ++
                (if indent = 0 then "\n" else ""))) (.ok "")
    | .woption wv =>
      match data with
      | .onone => .ok " ?\n"
      | _ =>
        match wtreeWriteF fuel wv data with
        | .error e => .error e
        | .ok s => .ok (" !\n" ++ s)
    | .wlist wv indent =>
      match data with
      | .olist items =>
        items.foldl (fun acc v =>
          match acc with
          | .error e => .error e
          | .ok out =>
            match wtreeWriteF fuel wv v with
            | .error e => .error e
            | .ok s => .ok (out ++ indentStr indent ++ "value" ++ s)) (.ok "\n")
      | _ => .error (.valueError "list expected")
    | .wdict wk wv indent =>
      match dictItemsSorted data with
      | .error e => .error e
      | .ok entries =>
        entries.foldl (fun acc kv =>
          match acc with
          | .error e => .error e
          | .ok out =>
            match wtreeWriteF fuel wk kv.1 with
            | .error e => .error e
            | .ok ks =>
              match wtreeWriteF fuel wv kv.2 with
              | .error e => .error e
              | .ok vs => .ok (out ++ "\n" ++ indentStr indent ++ "value" ++ ks ++ vs))
          (.ok "")

/-- `objects2text(lookup_primformatter, spec, obj)`
(objects2text.py:134-139). -/
def objects2text (lookup : String → Option (Obj → Res String)) (spec : Sp)
    (obj : Obj) : Res String :=
  match make_writer_from_spec lookup spec 0 with
  | .error e => .error e
  | .ok w => wtreeWriteF (WTree.depth w) w obj

/-! ### text2objects (wsl/wslh/text2objects.py) and make_make_wslreader
(wsl/lexwsl.py:176-193)

The readers built by `any2objects` are closures, built eagerly from the
spec before any text is consumed; they are represented by the closure
tree `RTree`, interpreted by `rtreeRead`. -/

/-- `_chardesc(text, i)` (text2objects.py:12-21). -/
def hexDigitChar (n : Nat) : Char :=
  if n < 10 then Char.ofNat (0x30 + n) else Char.ofNat (0x57 + n)

def chardesc (t : Text) (i : Nat) : String :=
  match charAt? t i with
  | none => "(EOL)"
  | some c =>
    if c.toNat < 32 then
      String.mk ['(', '0', 'x', hexDigitChar (c.toNat / 16), hexDigitChar (c.toNat % 16), ')']
    else
      String.mk ['"', c, '"']

/-- `parse_space(text, i)` (text2objects.py:24-29); this module's
`LexError` calls pass all five required arguments. -/
def t2o_parse_space (t : Text) (i : Nat) : Res Nat :=
  if charAt? t i = some ' ' then .ok (i + 1)
  else .error (.lexError "space character" (String.mk t) i i
    ("Expected space character (0x20) but found " ++ chardesc t i))

/-- `parse_newline(text, i)` (text2objects.py:32-37). -/
def t2o_parse_newline (t : Text) (i : Nat) : Res Nat :=
  if charAt? t i = some '\n' then .ok (i + 1)
  else .error (.lexError "newline character" (String.mk t) i i
    ("Expected newline character (0x0a) but found " ++ chardesc t i))

/-- `parse_colon(text, i)` (text2objects.py:40-45). -/
def t2o_parse_colon (t : Text) (i : Nat) : Res Nat :=
  if charAt? t i = some ':' then .ok (i + 1)
  else .error (.lexError "colon character" (String.mk t) i i
    ("Expected colon (\":\") character but found " ++ chardesc t i))

/-- A maximal run of space characters starting at `k`. -/
def spacesRun (t : Text) (k : Nat) : Nat → Nat
  | 0 => k
  | fuel + 1 =>
    match charAt? t k with
    | some c => if c = ' ' then spacesRun t (k + 1) fuel else k
    | none => k

/-- `number_of_spaces(text, i)` (text2objects.py:52-59): `-1` at EOL (the
`XXX` branch), else the length of the space run. -/
def number_of_spaces (t : Text) (i : Nat) : Int :=
  if i ≥ t.length then -1 else ((spacesRun t i t.length) - i : Nat)

/-- A maximal run of letters starting at `k` (Python `str.isalpha`; all
texts in this development are ASCII, where the two coincide). -/
def alphaRun (t : Text) (k : Nat) : Nat → Nat
  | 0 => k
  | fuel + 1 =>
    match charAt? t k with
    | some c => if c.isAlpha then alphaRun t (k + 1) fuel else k
    | none => k

/-- `parse_keyword(text, i)` (text2objects.py:62-69). -/
def parse_keyword (t : Text) (i : Nat) : Res (Nat × String) :=
  let stop := alphaRun t i t.length
  if stop = i then
    .error (.lexError "Keyword" (String.mk t) i i
      ("Found invalid character " ++ chardesc t i ++ " with no valid consumed characters"))
  else .ok (stop, String.mk ((t.drop i).take (stop - i)))

/-- The `(ws_reader, end_reader)` pair chosen per struct member by
`struct2objects` (text2objects.py:108-117): `(parse_space,
parse_newline)` for a `Value` child, `(parse_space, parse_nothing)` for
an `Option` child, `(parse_newline, parse_nothing)` otherwise. -/
inductive WsKind where
  | wsV
  | wsOpt
  | wsOther
  deriving DecidableEq, Repr

/-- The reader closure tree built by `any2objects`
(text2objects.py:273-295). -/
inductive RTree where
  | rvalue (reader : Text → Nat → Res (Nat × V))
  | rstruct (childs : List (String × WsKind × RTree)) (indent : Nat)
  | roption (valueChild : Bool) (val : RTree)
  | rset (endNewline : Bool) (val : RTree) (indent : Nat)
  | rlist (endNewline : Bool) (val : RTree) (indent : Nat)
  | rdict (wsSpace : Bool) (key val : RTree) (indent : Nat)

def spIsValue : Sp → Bool
  | .value _ _ _ => true
  | _ => false

def spIsOption : Sp → Bool
  | .option _ _ => true
  | _ => false

mutual

/-- The eager reader-construction phase of `any2objects`
(text2objects.py:273-295) and the per-kind constructors it dispatches
to: `value2objects` (97-101) raises `ValueError` when `make_reader`
yields no reader; `struct2objects` (104-117) builds each child at
`indent + 4`; `option2objects` (163-169) builds the value reader at the
same indent and wraps it according to the child kind; `set2objects`
(186-192) and `list2objects` (213-219) build only the `_val_` child at
the same indent (the `_idx_` child of a `List` is never used);
`dict2objects` (240-249) builds key and value readers at `indent + 4`. -/
def t2oConsAny (mk : String → Option (Text → Nat → Res (Nat × V))) :
    Sp → Nat → Res RTree
  | .value _ _ primtype, _ =>
    match mk primtype with
    | none =>
      .error (.valueError ("There is no reader for datatype \"" ++ primtype ++ "\""))
    | some r => .ok (.rvalue r)
  | .struct childs _, indent =>
    match t2oConsChilds mk childs (indent + 4) with
    | .error e => .error e
    | .ok dct => .ok (.rstruct dct indent)
  | .option vspec _, indent =>
    match t2oConsAny mk vspec indent with
    | .error e => .error e
    | .ok rv => .ok (.roption (spIsValue vspec) rv)
  | .sset vspec _, indent =>
    match t2oConsAny mk vspec indent with
    | .error e => .error e
    | .ok rv => .ok (.rset (spIsValue vspec) rv indent)
  | .slist _ vspec _, indent =>
    match t2oConsAny mk vspec indent with
    | .error e => .error e
    | .ok rv => .ok (.rlist (spIsValue vspec) rv indent)
  | .dict kspec vspec _, indent =>
    match t2oConsAny mk kspec (indent + 4) with
    | .error e => .error e
    | .ok rk =>
      match t2oConsAny mk vspec (indent + 4) with
      | .error e => .error e
      | .ok rv => .ok (.rdict (spIsValue vspec || spIsOption vspec) rk rv indent)

/-- The `for k, v in spec.childs.items()` loop of `struct2objects`
(text2objects.py:105-117), in insertion order. -/
def t2oConsChilds (mk : String → Option (Text → Nat → Res (Nat × V))) :
    List (String × Sp) → Nat → Res (List (String × WsKind × RTree))
  | [], _ => .ok []
  | (k, v) :: rest, nextindent =>
    match t2oConsAny mk v nextindent with
    | .error e => .error e
    | .ok rv =>
      let ws := if spIsValue v then WsKind.wsV
        else if spIsOption v then WsKind.wsOpt else WsKind.wsOther
      match t2oConsChilds mk rest nextindent with
      | .error e => .error e
      | .ok rs => .ok ((k, ws, rv) :: rs)

end

/-- The type of the child-reading callback threaded through the loop
interpreters (instantiated with `rtreeRead fuel`). -/
abbrev ReadFn := RTree → Text → Nat → Res (Nat × Obj)

/-- The `while True` loop of `struct_reader` (text2objects.py:125-145):
per iteration, check the indent, consume it, demand a colon, read a
keyword, look it up among the member readers, and run the member's
`(ws, val, end)` reader triple.  Fuel exhaustion (`0`) models a
non-terminating loop and is unreachable for the fuel passed by
`text2objects`. -/
def rstructLoop (rd : ReadFn) (childs : List (String × WsKind × RTree))
    (indent : Nat) (t : Text) (start : Nat) :
    Nat → Nat → List (String × Obj) → Res (Nat × List (String × Obj))
  | _, 0, _ => .error .assertionError
  | i, fuel + 1, items =>
    let nsp := number_of_spaces t i
    if nsp < (indent : Int) then .ok (i, items)
    else if nsp > (indent : Int) then
      .error (.parseError ("struct at indent level " ++ toString indent)
        (String.mk t) start i ("unexpected indent of " ++ toString nsp))
    else do
      let i3 ← t2o_parse_colon t (i + indent)
      let (i4, key) ← parse_keyword t i3
      match alGet? childs key with
      | none =>
        .error (.parseError "struct" (String.mk t) start i4
          ("Invalid member \"" ++ key ++ "\""))
      | some (ws, childTree) => do
        let i5 ← (match ws with
          | .wsV | .wsOpt => t2o_parse_space t i4
          | .wsOther => t2o_parse_newline t i4)
        let (i6, val) ← rd childTree t i5
        let i7 ← (match ws with
          | .wsV => t2o_parse_newline t i6
          | _ => .ok i6)
        rstructLoop rd childs indent t start i7 fuel (items ++ [(key, val)])

/-- The shared `while True` loop of `set_reader` (text2objects.py:198-208)
and `list_reader` (text2objects.py:225-235): both accumulate into a
Python `set` via `set_.add(val)`. -/
def rcollLoop (rd : ReadFn) (rv : RTree) (endNewline : Bool) (indent : Nat)
    (t : Text) (start : Nat) (what : String) :
    Nat → Nat → List Obj → Res (Nat × List Obj)
  | _, 0, _ => .error .assertionError
  | i, fuel + 1, acc =>
    let nsp := number_of_spaces t i
    if nsp < (indent : Int) then .ok (i, acc)
    else if nsp > (indent : Int) then
      .error (.parseError (what ++ " at indent level " ++ toString indent)
        (String.mk t) start i ("unexpected indent of " ++ toString nsp))
    else do
      let (i3, v) ← rd rv t (i + indent)
      let i4 ← (if endNewline then t2o_parse_newline t i3 else .ok i3)
      rcollLoop rd rv endNewline indent t start what i4 fuel (setAdd acc v)

/-- The `while True` loop of `dict_reader` (text2objects.py:255-268).
`dct.setdefault(key, val) is not val` detects an equal pre-existing key:
the stored value is a distinct object from the just-parsed `val`. -/
def rdictLoop (rd : ReadFn) (rk rv : RTree) (wsSpace : Bool) (indent : Nat)
    (t : Text) (start : Nat) :
    Nat → Nat → List (Obj × Obj) → Res (Nat × List (Obj × Obj))
  | _, 0, _ => .error .assertionError
  | i, fuel + 1, dct =>
    let nsp := number_of_spaces t i
    if nsp < (indent : Int) then .ok (i, dct)
    else if nsp > (indent : Int) then
      .error (.parseError ("dict at indent level " ++ toString indent)
        (String.mk t) start i ("unexpected indent of " ++ toString nsp))
    else do
      let (i3, key) ← rd rk t (i + indent)
      let i4 ← (if wsSpace then t2o_parse_space t i3 else t2o_parse_newline t i3)
      let (i5, val) ← rd rv t i4
      let i6 ← (if wsSpace then t2o_parse_newline t i5 else .ok i5)
      if dct.any (fun p => Obj.beq p.1 key) then
        .error (.parseError "dict" (String.mk t) start i6 "Duplicate key")
      else rdictLoop rd rk rv wsSpace indent t start i6 fuel (dct ++ [(key, val)])

/-- The reader interpreter, one unit of fuel per level of reading.  The
struct case finishes with the item-to-dict conversion of
text2objects.py:147-159: the `k not in dct.keys()` and `k in items`
checks never fire (every `k` comes from `dct`, and a string never equals
a `(key, value)` pair), so duplicate members silently overwrite via
`struct[k] = v` and only missing members are reported.  `option_reader`
(171-183) dispatches on `!`/`?` and otherwise calls `ParseError` with
three arguments, a `TypeError`.  Set and list readers both return the
accumulated set. -/
def rtreeRead : Nat → RTree → Text → Nat → Res (Nat × Obj)
  | 0, _, _, _ => .error .assertionError
  | fuel + 1, tree, t, i =>
    match tree with
    | .rvalue r =>
      match r t i with
      | .error e => .error e
      | .ok (j, v) => .ok (j, Obj.prim v)
    | .rstruct childs indent =>
      match rstructLoop (fun c => rtreeRead fuel c) childs indent t i i (fuel + 1) [] with
      | .error e => .error e
      | .ok (i2, items) =>
        let struct := items.foldl (fun acc kv =>
          dictAssign (fun a b => a = b) acc kv.1 kv.2) []
        match childs.find? (fun c => (alGet? struct c.1).isNone) with
        | some c =>
          .error (.parseError "struct" (String.mk t) i i2 ("Missing key: " ++ c.1))
        | none => .ok (i2, Obj.struct struct)
    | .roption isVal rv =>
      match charAt? t i with
      | some '!' =>
        if isVal then do
          let i2 ← t2o_parse_space t (i + 1)
          let (i3, v) ← rtreeRead fuel rv t i2
          let i4 ← t2o_parse_newline t i3
          .ok (i4, v)
        else do
          let i2 ← t2o_parse_newline t (i + 1)
          rtreeRead fuel rv t i2
      | some '?' => do
        let i2 ← t2o_parse_newline t (i + 1)
        .ok (i2, Obj.onone)
      | _ => .error (.parseErrorBadArity "Expected option")
    | .rset en rv indent =>
      match rcollLoop (fun c => rtreeRead fuel c) rv en indent t i "set" i (fuel + 1) [] with
      | .error e => .error e
      | .ok (i2, items) => .ok (i2, Obj.oset items)
    | .rlist en rv indent =>
      match rcollLoop (fun c => rtreeRead fuel c) rv en indent t i "list" i (fuel + 1) [] with
      | .error e => .error e
      | .ok (i2, items) => .ok (i2, Obj.oset items)
    | .rdict ws rk rv indent =>
      match rdictLoop (fun c => rtreeRead fuel c) rk rv ws indent t i i (fuel + 1) [] with
      | .error e => .error e
      | .ok (i2, entries) => .ok (i2, Obj.odict entries)

/-- `run_reader(reader, text)` (text2objects.py:298-302): its trailing
`ParseError('Unconsumed text', text, i)` passes three arguments, a
`TypeError`. -/
def run_reader (rd : Text → Nat → Res (Nat × Obj)) (t : Text) : Res Obj :=
  match rd t 0 with
  | .error e => .error e
  | .ok (i, r) =>
    if i ≠ t.length then .error (.parseErrorBadArity "Unconsumed text") else .ok r

/-- `make_make_wslreader(schema)` (lexwsl.py:176-193): the per-domain
reader exists only when the domain is declared and its funcs object has
both `decode` and `wsllex` attributes — no built-in domain has `wsllex`.
The closure it would build calls `decode(token)` with a single argument
(lexwsl.py:190), a `TypeError` for the two-parameter decoders. -/
def make_make_wslreader (schema : Schema) (domain : String) :
    Option (Text → Nat → Res (Nat × V)) :=
  match alGet? schema.domains domain with
  | none => none
  | some domobj =>
    match domobj.funcs.decode?, domobj.funcs.wsllex? with
    | some _, some lex =>
      some (fun t i =>
        match lex t i with
        | .error e => .error e
        | .ok _ =>
          .error (.typeErrorBuiltin "decode missing 1 required positional argument"))
    | _, _ => none

/-- `text2objects(schema, spec, text)` (text2objects.py:305-313): reader
construction runs before any text is consumed, so its errors are raised
for every input.  The interpreter fuel is ample for every terminating
run; the entry point never reaches the reading phase in this development
because no built-in domain can produce a reader. -/
def text2objects (schema : Schema) (spec : Sp) (t : Text) : Res Obj :=
  match t2oConsAny (make_make_wslreader schema) spec 0 with
  | .error e => .error e
  | .ok rt => run_reader (rtreeRead ((t.length + 2) * (t.length + 2)) rt) t

/-- A caller-supplied primitive reader standing for a user-defined domain
whose reader consumes a run of decimal digits (the `make_reader`
argument of `any2objects` is arbitrary; `text2objects` itself can never
supply a working one). -/
def digitIntReader (t : Text) (i : Nat) : Res (Nat × V) :=
  let stop := digitsRun t i t.length
  if stop = i then .error (.valueError "expected digits")
  else
    match pyIntOfDigits? ((t.drop i).take (stop - i)) with
    | some n => .ok (stop, V.vint n)
    | none => .error .assertionError

/-- The formatter lookup used by the C4 write-direction demonstration:
the module's own `format_int` for the `Int` primtype. -/
def c4Lookup (primtype : String) : Option (Obj → Res String) :=
  if primtype = "Int" then some format_int else none

/-- With a working (caller-supplied) primitive reader, the reader built
from `listSpec` parses `3\n3\n7\n` to the two-element SET of 3 and 7 at
position 6 — `list_reader` deduplicates and forgets order. -/
def c4ListReadIsSet : Bool :=
  match t2oConsAny (fun _ => some digitIntReader) listSpec 0 with
  | .error _ => false
  | .ok rt =>
    match rtreeRead 99 rt ("3\n3\n7\n".data) 0 with
    | .ok (i, o) =>
      i = 6 && Obj.beq o (Obj.oset [Obj.prim (V.vint 3), Obj.prim (V.vint 7)])
    | .error _ => false

/-! ### parse.py row parsing and format.py (claim C1)

`parse_values` (parse.py:296-311) unpacks `val, i = do.decode(line, i)`
although every decoder returns `(newpos, value)` — so after the first
column the "position" is whatever Python value was decoded.  The
embedding therefore carries the position as a dynamic value (`V` for the
loop state, `Int` once a real index is in hand) with Python indexing
semantics (negative wrap-around, `IndexError` out of range, `TypeError`
for string positions). -/

/-- Python `text[n]` for an `Int` index: negative indices wrap once,
out-of-range is `IndexError` (`none`). -/
def pyCharAtInt (t : Text) (n : Int) : Option Char :=
  if n < 0 then
    if n + t.length < 0 then none else t.get? (n + t.length).toNat
  else t.get? n.toNat

/-- Normalization of one Python slice bound: negatives are offset by the
length and clamped at 0, positives clamped at the length. -/
def pySliceNorm (len : Nat) (x : Int) : Nat :=
  if x < 0 then (x + len).toNat else min x.toNat len

/-- Python `text[a:b]`. -/
def pySliceInt (t : Text) (a b : Int) : List Char :=
  let a2 := pySliceNorm t.length a
  let b2 := pySliceNorm t.length b
  (t.drop a2).take (b2 - a2)

/-- `parse_relation_name(line, i)` (parse.py:255-263): `ord(line[i])` is
unguarded (`IndexError` at EOL), a non-letter start is a one-argument
`wsl.ParseError` (`TypeError`), then a maximal run of ASCII letters. -/
def parse_relation_name (t : Text) (i : Nat) : Res (String × Nat) :=
  match charAt? t i with
  | none => .error .indexError
  | some c =>
    if ¬ c.isAlpha then
      .error (.parseErrorBadCall "Expected table name")
    else
      let stop := alphaRun t i t.length
      .ok (String.mk ((t.drop i).take (stop - i)), stop)

/-- `parse_space(line, i)` (parse.py:265-284) under dynamic typing: the
position may be a decoded value.  `i == end` is checked first (false for
a string), then `ord(line[i])` raises `TypeError` for a string index or
`IndexError` out of range; a non-space is a one-argument
`wsl.ParseError` (`TypeError`). -/
def parse_space (t : Text) (i : V) : Res Int :=
  match i with
  | .vstr _ => .error (.typeErrorBuiltin "string indices must be integers")
  | .vint n =>
    if n = (t.length : Int) then
      .error (.parseErrorBadCall "Expected space character")
    else
      match pyCharAtInt t n with
      | none => .error .indexError
      | some c =>
        if c ≠ ' ' then .error (.parseErrorBadCall "Expected space character")
        else .ok (n + 1)

/-- The `while i < end and ord(line[i]) > 0x20 and ord(line[i]) != 0x7f`
scan of `ID_decode` (domain.py:128-129) over a possibly negative Python
start index; `2*len+2` fuel covers every reachable run.  (A start below
`-len` is rejected by the caller before this scan.) -/
def pyScanIdInt (t : Text) : Int → Nat → Int
  | i, 0 => i
  | i, fuel + 1 =>
    if i < (t.length : Int) then
      match pyCharAtInt t i with
      | some c =>
        if c.toNat > 0x20 ∧ c.toNat ≠ 0x7f then pyScanIdInt t (i + 1) fuel else i
      | none => i
    else i

/-- `ID_decode(line, i)` (domain.py:124-132) at a dynamic Python
position; agrees with `ID_decode` on natural positions.  The empty run
is a one-argument `wsl.ParseError` (`TypeError`). -/
def ID_decode_py (t : Text) (n : Int) : Res (Int × V) :=
  if n < -(t.length : Int) ∧ n < (t.length : Int) then .error .indexError
  else
    let stop := pyScanIdInt t n (2 * t.length + 2)
    if stop = n then
      .error (.parseErrorBadCall "EOL or invalid character while expecting ID")
    else .ok (stop, V.vstr (String.mk (pySliceInt t n stop)))

/-- The character scan of the no-escape `String_decode`
(domain.py:186-195) from a dynamic in-range position. -/
def pyScanStrInt (t : Text) : Int → Nat → Res Int
  | _, 0 => .error .assertionError
  | i, fuel + 1 =>
    if i < (t.length : Int) then
      match pyCharAtInt t i with
      | some c =>
        if c.toNat = 0x5d then .ok i
        else if c.toNat < 0x20 ∨ c.toNat = 0x5b ∨ c.toNat = 0x7f then
          .error (.parseErrorBadCall "Disallowed character in string literal")
        else pyScanStrInt t (i + 1) fuel
      | none => .error .indexError
    else .error (.parseErrorBadCall "EOL while looking for closing quote")

/-- The no-escape `String_decode(line, i)` (domain.py:181-197) at a
dynamic Python position; agrees with `String_decode_noescape` on natural
positions. -/
def String_decode_noescape_py (t : Text) (n : Int) : Res (Int × V) :=
  if n = (t.length : Int) then
    .error (.parseErrorBadCall "Did not find expected WSL string literal")
  else
    match pyCharAtInt t n with
    | none => .error .indexError
    | some c =>
      if c.toNat ≠ 0x5b then
        .error (.parseErrorBadCall "Did not find expected WSL string literal")
      else
        match pyScanStrInt t (n + 1) (2 * t.length + 2) with
        | .error e => .error e
        | .ok stop => .ok (stop + 1, V.vstr (String.mk (pySliceInt t (n + 1) stop)))

/-- The `for do in domain_objects` loop of `parse_values`
(parse.py:303-306) and the trailing `if i != end` check (307-308, a
one-argument `wsl.ParseError`).  Source line 305 is
`val, i = do.decode(line, i)` although the decoder returns
`(newpos, value)`: the new position is appended to `vs` as the parsed
value and the decoded value becomes the next position. -/
def parse_values_go (line : Text) : List (Text → Int → Res (Int × V)) → V →
    List V → Res (List V)
  | [], i, vs =>
    match i with
    | .vstr _ => .error (.parseErrorBadCall "Expected EOL")
    | .vint n =>
      if n = (line.length : Int) then .ok vs
      else .error (.parseErrorBadCall "Expected EOL")
  | d :: rest, i, vs =>
    match parse_space line i with
    | .error e => .error e
    | .ok j =>
      match d line j with
      | .error e => .error e
      | .ok (jv, val) => parse_values_go line rest val (vs ++ [V.vint jv])

/-- `parse_values(line, i, domain_objects)` (parse.py:296-311). -/
def parse_values (line : Text) (i : Nat)
    (dos : List (Text → Int → Res (Int × V))) : Res (List V) :=
  parse_values_go line dos (V.vint i) []

/-- `parse_row(line, objects_of_relation)` (parse.py:314-337); an unknown
relation is a one-argument `wsl.ParseError` (`TypeError`). -/
def parse_row (line : Text)
    (objects_of_relation : List (String × List (Text → Int → Res (Int × V)))) :
    Res (String × List V) :=
  match parse_relation_name line 0 with
  | .error e => .error e
  | .ok (relation, i) =>
    match alGet? objects_of_relation relation with
    | none => .error (.parseErrorBadCall "No such table")
    | some dos =>
      match parse_values line i dos with
      | .error e => .error e
      | .ok vals => .ok (relation, vals)

/-- Python `str.splitlines()` for texts whose only line boundary is
`\n` (the only boundary appearing in this development). -/
def pySplitlinesNL (s : String) : List String :=
  if s = "" then []
  else
    let parts := pySplitSub s "\n"
    if s.data.getLast? = some '\n' then parts.dropLast else parts

/-- `format_schema(schema, escape)` (format.py:6-22). -/
def format_schema (schema : Schema) (escape : Bool) : String :=
  if escape then
    String.join ((pySplitlinesNL schema.spec).map (fun l => "% " ++ l ++ "\n"))
  else schema.spec

/-- `format_db(schema, tuples_of_relation, inline_schema)`
(format.py:60-88), its generator run to completion.  The loop body's
first expression is `schema.domains_of_relation[relation]` (format.py:82)
— but `Schema.__init__` (schema.py:218-222) defines only `spec`,
`domains`, `tables`, `keys` and `foreignkeys`, so the attribute lookup
raises `AttributeError` as soon as there is a first relation to format
(`schema.object_of_domain` on the next line does not exist either). -/
def format_db (schema : Schema)
    (tuples_of_relation : List (String × List (List V)))
    (inline_schema : Bool) : Res (List String) :=
  let pre := if inline_schema then [format_schema schema true] else []
  match sortBy strLeB (tuples_of_relation.map Prod.fst) with
  | [] => .ok pre
  | _ :: _ => .error (.attributeError "domains_of_relation")

/-- The scenario-1 schema: `DOMAIN ID ID`, `DOMAIN String String`,
`TABLE Person ID String`. -/
def schemaScen1 : Schema :=
  { spec := "DOMAIN ID ID\nDOMAIN String String\nTABLE Person ID String\n"
    domains := [("ID", ⟨"ID", "ID ID", IDFuncs⟩),
      ("String", ⟨"String", "String String", StringFuncs⟩)]
    tables := [("Person", ⟨"Person", "Person ID String", ["ID", "String"], []⟩)]
    keys := [], foreignkeys := [] }

/-- `objects_of_relation` as built by `parse_db` (parse.py:404-410) for
the scenario-1 schema: the (dynamic-position) decoders of Person's
columns. -/
def objectsScen1 : List (String × List (Text → Int → Res (Int × V))) :=
  [("Person", [ID_decode_py, String_decode_noescape_py])]

/-! ### Claims C2 (counterexample), C5, C6 -/

/-- C2 counterexample: the claim states that a database where some table
contains the same row twice is always rejected (via an implicit
all-columns key), even when no KEY is declared.  `check_database_integrity`
iterates only over `schema.keys` — no implicit key exists — so the
duplicated row `("a")` in the keyless table `T` passes the check. -/
theorem C2_counterexample_duplicate_row_accepted :
    check_database_integrity schemaC2 [("T", [[V.vstr "a"], [V.vstr "a"]])] =
      .ok () := by
  decide

/-- C5 counterexample: the claim's scenario-2 schema line
`REFERENCE ChildParent Child p c => Parent p *` does not even parse —
`parse_foreignkey_decl` requires the same variable set on both sides of
`=>` and here the left side binds `{p, c}` against `{p}` on the right
(and the single-argument `wsl.ParseError` call at that raise site actually
raises `TypeError`).  Hence `check_integrity` can never see this schema,
and a fortiori never raises `ForeignKeyConstraintViolation` for it. -/
theorem C5_counterexample_scenario_reference_rejected :
    parse_foreignkey_decl "ChildParent Child p c => Parent p *" scTables =
      .error (.parseErrorBadCall "Different variables used on both sides of the arrow") := by
  decide

/-- C5 amended: with the REFERENCE written in the accepted form
`Child p * => Parent p *` and a declared unique key on `Parent p`
(required by the checker), `check_database_integrity` on the scenario-2
rows does detect the violation at row `(z,"oops")` — but it raises the
base class `wsl.IntegrityError` with a %-formatted message naming table
`Child`, the offending row, foreign key `ChildParent`, the row key `(z)`
and the referenced table `Parent` (integrity.py:61).  The subclass
`ForeignKeyConstraintViolation` exists in exceptions.py but is raised
nowhere in the code base. -/
theorem C5_fk_violation_raises_base_integrity_error :
    check_database_integrity schemaC5 tablesC5 =
      .error (.integrityErrorFKey "Child" [V.vstr "z", V.vstr "oops"]
        "ChildParent" [V.vstr "z"] "Parent") := by
  decide

/-- C6 counterexample: a schema whose foreign key has no matching unique
key on the referenced table is accepted by `Schema.__init__` — the
constructor validates only that tables exist and column indices are valid,
never that `refcolumns` are covered by a declared key.  (`schemaC6` has a
foreign key into `Parent` and no keys at all.) -/
theorem C6_counterexample_schema_construction_accepts_unmatched_fk :
    (mkSchema "" scDomains scTables [] schemaC6.foreignkeys).isOk = true := by
  decide

/-- C6 amended: the missing-unique-key condition is enforced not at schema
construction but inside `check_database_integrity`, whose foreign-key
setup runs before any row is examined: for *every* database (even one
whose tables are all empty) the check raises
`ValueError('Foreign key "ChildParent" references table "Parent", but
there is no matching unique key')`. -/
theorem C6_unmatched_fk_fails_at_integrity_check :
    ∀ tables : List (String × List (List V)),
      check_database_integrity schemaC6 tables =
        .error (.valueErrorNoMatchingKey "ChildParent" "Parent") :=
  fun _ => rfl

/-! ### Claims C8 and C9 -/

/-- C8: the claim states that the Int domain decoder accepts exactly
`0|-?[1-9][0-9]*`, in particular every `-`-prefixed token.  The code is a
slip against that spec: `lex_wsl_int` (the WSL integer lexer) does accept
`-5`, and `Int_encode (-5)` produces the token `-5`, but `Int_decode` has
no minus branch at all and rejects the token, breaking the documented
`decode ∘ encode = identity` invariant.  The leading-zero half of the claim
holds (`0` decodes, `05` is rejected), though the rejection surfaces as a
`TypeError` because `domain.py` constructs `wsl.ParseError` with a single
argument where five are required. -/
theorem C8_int_decode_rejects_negative :
    lex_wsl_int "-5".data 0 = .ok (2, "-5") ∧
    Int_encode (-5) = "-5" ∧
    Int_decode "-5".data 0 =
      .error (.parseErrorBadCall "Did not find expected integer literal") ∧
    Int_decode "0".data 0 = .ok (1, 0) ∧
    Int_decode "05".data 0 =
      .error (.parseErrorBadCall "Found integer literal (leading zero)") :=
  ⟨rfl, rfl, rfl, rfl, rfl⟩

/-- C9 counterexample: the claim states that `lex_wsl_string_with_escapes`
decodes `\uDDDD`, and concretely that lexing `[e]` at position 0
succeeds with the one-character string of code point 65.  In fact the lexer
has no `\u` branch: the escape falls through to the unknown-escape error
(whose message shows the backslash itself rather than the escape letter,
a further source slip). -/
theorem C9_counterexample_lexer_rejects_u_escape :
    lex_wsl_string_with_escapes "[\\u0065]".data 0 =
      .error (.lexError "String literal" "[\\u0065]" 0 1
        "Unknown escape sequence: \\\\") :=
  rfl

/-- C9 amended: no code path in the program decodes `\uDDDD` or
`\UDDDDDDDD`.  The lexer `lex_wsl_string_with_escapes` handles only
`\[`, `\]`, `\\` (shown on `[a\]b\\c\[d]`); its `\x` branch raises
`NameError` because `_hexdecode` refers to the undefined name `hex2dec`,
and `\u`/`\U` fall through to the unknown-escape error (the
counterexample).  The String domain decoder
`make_String_decode(escape=True)` decodes only `\xHH` — `[\x41]` yields
the one-character string of code point 65 — while its `\u` and `\U`
branches raise the interpreter `TypeError` on every well-formed escape,
because domain.py:164 and 167 apply `chr()` to the character that
`parse_unicode`/`parse_Unicode` already produced. -/
theorem C9_escape_decoding_broken_everywhere :
    String_decode_escape "[\\x41]".data 0 = .ok (6, "A") ∧
    "A" = String.mk [Char.ofNat 65] ∧
    String_decode_escape "[\\u0065]".data 0 =
      .error (.typeErrorBuiltin "an integer is required (got type str)") ∧
    String_decode_escape "[\\U00000065]".data 0 =
      .error (.typeErrorBuiltin "an integer is required (got type str)") ∧
    lex_wsl_string_with_escapes "[a\\]b\\\\c\\[d]".data 0 = .ok (12, "a]b\\c[d") ∧
    lex_wsl_string_with_escapes "[\\xab]".data 0 = .error (.nameError "hex2dec") :=
  ⟨rfl, rfl, rfl, rfl, rfl, rfl⟩

/-! ### Infrastructure lemmas for the integrity characterization -/

@[simp]
lemma resBind_ok {α β : Type} (a : α) (f : α → Res β) :
    (Except.ok a >>= f) = f a := rfl

@[simp]
lemma resBind_err {α β : Type} (e : PyErr) (f : α → Res β) :
    ((Except.error e : Res α) >>= f) = .error e := rfl

@[simp]
lemma resPure_eq {α : Type} (a : α) : (pure a : Res α) = Except.ok a := rfl

lemma insertSorted_perm {α : Type} (le : α → α → Bool) (x : α) (l : List α) :
    (insertSorted le x l).Perm (x :: l) := by
  induction l with
  | nil => simp [insertSorted]
  | cons y ys ih =>
    unfold insertSorted
    by_cases h : le x y
    · simp [h]
    · simp only [h]
      rw [if_neg (by simp [h])]
      exact (ih.cons y).trans (List.Perm.swap x y ys)

lemma sortBy_perm {α : Type} (le : α → α → Bool) (l : List α) :
    (sortBy le l).Perm l := by
  induction l with
  | nil => simp [sortBy]
  | cons x xs ih =>
    unfold sortBy
    exact (insertSorted_perm le x (sortBy le xs)).trans (ih.cons x)

lemma mem_sortBy {α : Type} {le : α → α → Bool} {l : List α} {a : α} :
    a ∈ sortBy le l ↔ a ∈ l :=
  (sortBy_perm le l).mem_iff

lemma alGet?_eq_some_of_mem {α : Type} {l : List (String × α)} {k : String} {v : α}
    (hnd : (l.map Prod.fst).Nodup) (hm : (k, v) ∈ l) : alGet? l k = some v := by
  induction l with
  | nil => cases hm
  | cons p rest ih =>
    simp only [List.map_cons, List.nodup_cons] at hnd
    rcases List.mem_cons.mp hm with h | h
    · rw [← h]; simp [alGet?]
    · have hk : p.1 ≠ k := by
        intro hc
        exact hnd.1 (hc ▸ List.mem_map.mpr ⟨(k, v), h, rfl⟩)
      have := ih hnd.2 h
      simpa [alGet?, List.find?, hk] using this

lemma idxLookup_insert_self (st : IdxState) (n : String) (rk : List V) (p : Nat) :
    idxLookup (idxInsert st n rk p) n = idxLookup st n ++ [(rk, p)] := by
  induction st with
  | nil => simp [idxInsert, idxLookup, alGet?]
  | cons q rest ih =>
    match q with
    | (qn, qes) =>
      unfold idxInsert
      by_cases h : qn = n
      · rw [if_pos h]
        simp [idxLookup, alGet?, List.find?, h]
      · rw [if_neg h]
        simpa [idxLookup, alGet?, List.find?, h] using ih

lemma idxLookup_insert_ne (st : IdxState) {m n : String} (rk : List V) (p : Nat)
    (h : m ≠ n) : idxLookup (idxInsert st n rk p) m = idxLookup st m := by
  induction st with
  | nil => simp [idxInsert, idxLookup, alGet?, List.find?, Ne.symm h]
  | cons q rest ih =>
    match q with
    | (qn, qes) =>
      unfold idxInsert
      by_cases hq : qn = n
      · rw [if_pos hq]
        have : qn ≠ m := fun hc => h (by rw [← hc, hq])
        simp [idxLookup, alGet?, List.find?, this, hq, Ne.symm h]
      · rw [if_neg hq]
        by_cases hqm : qn = m
        · simp [idxLookup, alGet?, List.find?, hqm]
        · simpa [idxLookup, alGet?, List.find?, hqm] using ih

lemma entriesAt_insert_self (st : IdxState) (n : String) (rk : List V) (p : Nat) :
    entriesAt (idxInsert st n rk p) n = entriesAt st n ++ [rk] := by
  simp [entriesAt, idxLookup_insert_self]

lemma entriesAt_insert_ne (st : IdxState) {m n : String} (rk : List V) (p : Nat)
    (h : m ≠ n) : entriesAt (idxInsert st n rk p) m = entriesAt st m := by
  simp [entriesAt, idxLookup_insert_ne st rk p h]

lemma projRow_eq_ok {row : List V} {cols : List Nat}
    (h : (projRow row cols).isOk = true) : projRow row cols = .ok (projV row cols) := by
  unfold projV
  cases hp : projRow row cols with
  | ok rk => rfl
  | error e => rw [hp] at h; simp [Except.isOk, Except.toBool] at h

lemma keyCheckRowKeys_cons (t : String) (k : SchemaKeyRec) (rest : List SchemaKeyRec)
    (row : List V) (pos : Nat) (st : IdxState) :
    keyCheckRowKeys t (k :: rest) row pos st =
      (keyCheckRow t k row pos st) >>= (keyCheckRowKeys t rest row pos) := rfl

lemma keyCheckRows_cons (t : String) (keys : List SchemaKeyRec) (r : List V)
    (rest : List (List V)) (pos : Nat) (st : IdxState) :
    keyCheckRows t keys (r :: rest) pos st =
      (keyCheckRowKeys t keys r pos st) >>= (keyCheckRows t keys rest (pos + 1)) := rfl

lemma keyCheckRow_eq (t : String) (k : SchemaKeyRec) (row : List V) (pos : Nat)
    (st : IdxState) (hp : (projRow row k.columns).isOk = true)
    (posb : ∀ e ∈ idxLookup st k.name, e.2 < pos) :
    keyCheckRow t k row pos st =
      if projV row k.columns ∈ entriesAt st k.name then
        .error (.integrityErrorKey t row k.name)
      else .ok (idxInsert st k.name (projV row k.columns) pos) := by
  unfold keyCheckRow
  rw [projRow_eq_ok hp, resBind_ok]
  cases hfind : (idxLookup st k.name).find? (fun e => decide (e.1 = projV row k.columns)) with
  | some e =>
    have he0 := List.find?_some hfind
    have he1 : e.1 = projV row k.columns := of_decide_eq_true he0
    have hmem : e ∈ idxLookup st k.name := List.mem_of_find?_eq_some hfind
    have hlt : e.2 < pos := posb e hmem
    have hne : e.2 ≠ pos := Nat.ne_of_lt hlt
    have hin : projV row k.columns ∈ entriesAt st k.name :=
      List.mem_map.mpr ⟨e, hmem, he1⟩
    simp [hne, hin]
  | none =>
    have hnin : projV row k.columns ∉ entriesAt st k.name := by
      intro hc
      rcases List.mem_map.mp hc with ⟨e, hmem, he1⟩
      have := List.find?_eq_none.mp hfind e hmem
      simp [he1] at this
    simp [hnin]

lemma keyCheckRowKeys_ok (t : String) (keys : List SchemaKeyRec) (row : List V)
    (pos : Nat) (st : IdxState)
    (hnames : (keys.map SchemaKeyRec.name).Nodup)
    (hok : ∀ k ∈ keys, (projRow row k.columns).isOk = true)
    (posb : ∀ k ∈ keys, ∀ e ∈ idxLookup st k.name, e.2 < pos)
    (hfresh : ∀ k ∈ keys, projV row k.columns ∉ entriesAt st k.name) :
    ∃ st', keyCheckRowKeys t keys row pos st = .ok st' ∧
      (∀ k ∈ keys, idxLookup st' k.name =
        idxLookup st k.name ++ [(projV row k.columns, pos)]) ∧
      (∀ n, n ∉ keys.map SchemaKeyRec.name → idxLookup st' n = idxLookup st n) := by
  induction keys generalizing st with
  | nil => exact ⟨st, rfl, by simp, fun n _ => rfl⟩
  | cons k rest ih =>
    simp only [List.map_cons, List.nodup_cons] at hnames
    have hkmem : k ∈ k :: rest := List.mem_cons_self k rest
    have hrow := keyCheckRow_eq t k row pos st (hok k hkmem) (posb k hkmem)
    rw [if_neg (hfresh k hkmem)] at hrow
    have hstep : keyCheckRowKeys t (k :: rest) row pos st =
        keyCheckRowKeys t rest row pos (idxInsert st k.name (projV row k.columns) pos) := by
      rw [keyCheckRowKeys_cons, hrow, resBind_ok]
    have hne : ∀ k' ∈ rest, k'.name ≠ k.name := by
      intro k' hk' hc
      exact hnames.1 (hc ▸ List.mem_map.mpr ⟨k', hk', rfl⟩)
    obtain ⟨st', hrun, hupd, hother⟩ :=
      ih (idxInsert st k.name (projV row k.columns) pos)
        hnames.2
        (fun k' hk' => hok k' (List.mem_cons_of_mem k hk'))
        (fun k' hk' => by
          rw [idxLookup_insert_ne st _ _ (hne k' hk')]
          exact posb k' (List.mem_cons_of_mem k hk'))
        (fun k' hk' => by
          rw [entriesAt_insert_ne st _ _ (hne k' hk')]
          exact hfresh k' (List.mem_cons_of_mem k hk'))
    refine ⟨st', by rw [hstep]; exact hrun, ?_, ?_⟩
    · intro k' hk'
      rcases List.mem_cons.mp hk' with h | h
      · subst h
        have hk'nin : k'.name ∉ rest.map SchemaKeyRec.name := hnames.1
        rw [hother k'.name hk'nin, idxLookup_insert_self]
      · rw [hupd k' h, idxLookup_insert_ne st _ _ (hne k' h)]
    · intro n hn
      simp only [List.map_cons, List.mem_cons, not_or] at hn
      rw [hother n hn.2, idxLookup_insert_ne st _ _ hn.1]

lemma keyCheckRowKeys_err (t : String) (keys : List SchemaKeyRec) (row : List V)
    (pos : Nat) (st : IdxState)
    (hnames : (keys.map SchemaKeyRec.name).Nodup)
    (hok : ∀ k ∈ keys, (projRow row k.columns).isOk = true)
    (posb : ∀ k ∈ keys, ∀ e ∈ idxLookup st k.name, e.2 < pos)
    (hcol : ∃ k ∈ keys, projV row k.columns ∈ entriesAt st k.name) :
    ∃ e, keyCheckRowKeys t keys row pos st = .error e := by
  induction keys generalizing st with
  | nil => simp at hcol
  | cons k rest ih =>
    simp only [List.map_cons, List.nodup_cons] at hnames
    have hkmem : k ∈ k :: rest := List.mem_cons_self k rest
    have hrow := keyCheckRow_eq t k row pos st (hok k hkmem) (posb k hkmem)
    by_cases hk : projV row k.columns ∈ entriesAt st k.name
    · rw [if_pos hk] at hrow
      refine ⟨.integrityErrorKey t row k.name, ?_⟩
      rw [keyCheckRowKeys_cons, hrow, resBind_err]
    · rw [if_neg hk] at hrow
      have hstep : keyCheckRowKeys t (k :: rest) row pos st =
          keyCheckRowKeys t rest row pos (idxInsert st k.name (projV row k.columns) pos) := by
        rw [keyCheckRowKeys_cons, hrow, resBind_ok]
      have hne : ∀ k' ∈ rest, k'.name ≠ k.name := by
        intro k' hk' hc
        exact hnames.1 (hc ▸ List.mem_map.mpr ⟨k', hk', rfl⟩)
      rcases hcol with ⟨k', hk', hc⟩
      rcases List.mem_cons.mp hk' with h | h
      · exact absurd (h ▸ hc) hk
      · obtain ⟨e, herr⟩ :=
          ih (idxInsert st k.name (projV row k.columns) pos)
            hnames.2
            (fun k'' hk'' => hok k'' (List.mem_cons_of_mem k hk''))
            (fun k'' hk'' => by
              rw [idxLookup_insert_ne st _ _ (hne k'' hk'')]
              exact posb k'' (List.mem_cons_of_mem k hk''))
            ⟨k', h, by rw [entriesAt_insert_ne st _ _ (hne k' h)]; exact hc⟩
        exact ⟨e, by rw [hstep]; exact herr⟩

lemma keyCheckRows_ok (t : String) (keys : List SchemaKeyRec) (rows : List (List V))
    (pos : Nat) (st : IdxState)
    (hnames : (keys.map SchemaKeyRec.name).Nodup)
    (hok : ∀ row ∈ rows, ∀ k ∈ keys, (projRow row k.columns).isOk = true)
    (posb : ∀ k ∈ keys, ∀ e ∈ idxLookup st k.name, e.2 < pos)
    (hfresh : ∀ k ∈ keys, ∀ row ∈ rows, projV row k.columns ∉ entriesAt st k.name)
    (hnodup : ∀ k ∈ keys, (rows.map (fun r => projV r k.columns)).Nodup) :
    ∃ st', keyCheckRows t keys rows pos st = .ok st' ∧
      (∀ k ∈ keys, idxLookup st' k.name =
        idxLookup st k.name ++ withPos (rows.map (fun r => projV r k.columns)) pos) ∧
      (∀ n, n ∉ keys.map SchemaKeyRec.name → idxLookup st' n = idxLookup st n) := by
  induction rows generalizing st pos with
  | nil => exact ⟨st, rfl, by simp [withPos], fun n _ => rfl⟩
  | cons r rest ih =>
    have hrmem : r ∈ r :: rest := List.mem_cons_self r rest
    obtain ⟨st1, hrun1, hupd1, hother1⟩ :=
      keyCheckRowKeys_ok t keys r pos st hnames
        (fun k hk => hok r hrmem k hk)
        posb
        (fun k hk => hfresh k hk r hrmem)
    obtain ⟨st', hrun, hupd, hother⟩ :=
      ih (pos + 1) st1
        (fun row hrow k hk => hok row (List.mem_cons_of_mem r hrow) k hk)
        (fun k hk e he => by
          rw [hupd1 k hk] at he
          rcases List.mem_append.mp he with h | h
          · exact Nat.lt_trans (posb k hk e h) (Nat.lt_succ_self pos)
          · simp at h
            rw [h]
            exact Nat.lt_succ_self pos)
        (fun k hk row hrow => by
          have : entriesAt st1 k.name = entriesAt st k.name ++ [projV r k.columns] := by
            simp [entriesAt, hupd1 k hk]
          rw [this]
          intro hc
          rcases List.mem_append.mp hc with h | h
          · exact hfresh k hk row (List.mem_cons_of_mem r hrow) h
          · simp at h
            have hnd := hnodup k hk
            simp only [List.map_cons, List.nodup_cons] at hnd
            exact hnd.1 (h ▸ List.mem_map.mpr ⟨row, hrow, rfl⟩))
        (fun k hk => by
          have hnd := hnodup k hk
          simp only [List.map_cons, List.nodup_cons] at hnd
          exact hnd.2)
    refine ⟨st', ?_, ?_, ?_⟩
    · rw [keyCheckRows_cons, hrun1, resBind_ok]
      exact hrun
    · intro k hk
      rw [hupd k hk, hupd1 k hk]
      simp [withPos, List.append_assoc]
    · intro n hn
      rw [hother n hn, hother1 n hn]

lemma keyCheckRows_err (t : String) (keys : List SchemaKeyRec) (rows : List (List V))
    (pos : Nat) (st : IdxState)
    (hnames : (keys.map SchemaKeyRec.name).Nodup)
    (hok : ∀ row ∈ rows, ∀ k ∈ keys, (projRow row k.columns).isOk = true)
    (posb : ∀ k ∈ keys, ∀ e ∈ idxLookup st k.name, e.2 < pos)
    (hbad : ∃ k ∈ keys, ¬ (rows.map (fun r => projV r k.columns)).Nodup ∨
      ∃ row ∈ rows, projV row k.columns ∈ entriesAt st k.name) :
    ∃ e, keyCheckRows t keys rows pos st = .error e := by
  induction rows generalizing st pos with
  | nil =>
    rcases hbad with ⟨k, _, h | h⟩
    · simp at h
    · simp at h
  | cons r rest ih =>
    have hrmem : r ∈ r :: rest := List.mem_cons_self r rest
    by_cases hr : ∃ k ∈ keys, projV r k.columns ∈ entriesAt st k.name
    · obtain ⟨e, herr⟩ :=
        keyCheckRowKeys_err t keys r pos st hnames
          (fun k hk => hok r hrmem k hk) posb hr
      exact ⟨e, by rw [keyCheckRows_cons, herr, resBind_err]⟩
    · push_neg at hr
      obtain ⟨st1, hrun1, hupd1, hother1⟩ :=
        keyCheckRowKeys_ok t keys r pos st hnames
          (fun k hk => hok r hrmem k hk) posb hr
      have posb1 : ∀ k ∈ keys, ∀ e ∈ idxLookup st1 k.name, e.2 < pos + 1 := by
        intro k hk e he
        rw [hupd1 k hk] at he
        rcases List.mem_append.mp he with h | h
        · exact Nat.lt_trans (posb k hk e h) (Nat.lt_succ_self pos)
        · simp at h
          rw [h]
          exact Nat.lt_succ_self pos
      have hent1 : ∀ k ∈ keys, entriesAt st1 k.name =
          entriesAt st k.name ++ [projV r k.columns] := by
        intro k hk
        simp [entriesAt, hupd1 k hk]
      obtain ⟨e, herr⟩ :=
        ih (pos + 1) st1
          (fun row hrow k hk => hok row (List.mem_cons_of_mem r hrow) k hk)
          posb1
          (by
            rcases hbad with ⟨k, hk, h | h⟩
            · simp only [List.map_cons, List.nodup_cons, not_and_or] at h
              rcases h with h | h
              · push_neg at h
                rcases List.mem_map.mp h with ⟨row, hrow, hpr⟩
                refine ⟨k, hk, Or.inr ⟨row, hrow, ?_⟩⟩
                rw [hent1 k hk, hpr]
                simp
              · exact ⟨k, hk, Or.inl h⟩
            · rcases h with ⟨row, hrow, hmem⟩
              rcases List.mem_cons.mp hrow with hcase | hcase
              · exact absurd (hcase ▸ hmem) (hr k hk)
              · refine ⟨k, hk, Or.inr ⟨row, hcase, ?_⟩⟩
                rw [hent1 k hk]
                exact List.mem_append_left _ hmem)
      exact ⟨e, by rw [keyCheckRows_cons, hrun1, resBind_ok]; exact herr⟩

lemma schemaKeys_names_eq {schema : Schema}
    (hcoh : ∀ p ∈ schema.keys, (p.2).name = p.1) :
    (schema.keys.map Prod.snd).map SchemaKeyRec.name = schema.keys.map Prod.fst := by
  rw [List.map_map]
  exact List.map_congr_left hcoh

lemma keysOfTable_mem_iff {schema : Schema} {t : String} {k : SchemaKeyRec} :
    k ∈ keysOfTable schema t ↔ k ∈ schema.keys.map Prod.snd ∧ k.table = t := by
  simp [keysOfTable, List.mem_filter]

lemma keysOfTable_names_nodup {schema : Schema} (t : String)
    (hcoh : ∀ p ∈ schema.keys, (p.2).name = p.1)
    (hknd : (schema.keys.map Prod.fst).Nodup) :
    ((keysOfTable schema t).map SchemaKeyRec.name).Nodup := by
  have hall : ((schema.keys.map Prod.snd).map SchemaKeyRec.name).Nodup := by
    rw [schemaKeys_names_eq hcoh]
    exact hknd
  exact hall.sublist (List.Sublist.map _ (List.filter_sublist _))

lemma schemaKey_name_inj {schema : Schema}
    (hcoh : ∀ p ∈ schema.keys, (p.2).name = p.1)
    (hknd : (schema.keys.map Prod.fst).Nodup) :
    ∀ k1 ∈ schema.keys.map Prod.snd, ∀ k2 ∈ schema.keys.map Prod.snd,
      k1.name = k2.name → k1 = k2 := by
  have hall : ((schema.keys.map Prod.snd).map SchemaKeyRec.name).Nodup := by
    rw [schemaKeys_names_eq hcoh]
    exact hknd
  intro k1 h1 k2 h2 h
  exact List.inj_on_of_nodup_map hall h1 h2 h

lemma keyPhase_cons (schema : Schema) (t : String) (rows : List (List V))
    (rest : List (String × List (List V))) (st : IdxState) :
    keyPhase schema ((t, rows) :: rest) st =
      if ¬ alContains schema.tables t then .error .keyError
      else (keyCheckRows t (keysOfTable schema t) rows 0 st) >>= keyPhase schema rest :=
  rfl

/-- Key names of keys of distinct tables are distinct (given globally
unique key names). -/
lemma keysOfTable_cross_ne {schema : Schema}
    (hcoh : ∀ p ∈ schema.keys, (p.2).name = p.1)
    (hknd : (schema.keys.map Prod.fst).Nodup)
    {t1 t2 : String} (hne : t1 ≠ t2)
    {k1 k2 : SchemaKeyRec} (h1 : k1 ∈ keysOfTable schema t1)
    (h2 : k2 ∈ keysOfTable schema t2) : k1.name ≠ k2.name := by
  intro hc
  have m1 := keysOfTable_mem_iff.mp h1
  have m2 := keysOfTable_mem_iff.mp h2
  have := schemaKey_name_inj hcoh hknd k1 m1.1 k2 m2.1 hc
  exact hne (by rw [← m1.2, ← m2.2, this])

lemma keyPhase_ok (schema : Schema) (tables : List (String × List (List V)))
    (st : IdxState)
    (hcoh : ∀ p ∈ schema.keys, (p.2).name = p.1)
    (hknd : (schema.keys.map Prod.fst).Nodup)
    (htab : ∀ p ∈ tables, alContains schema.tables p.1 = true)
    (htabnd : (tables.map Prod.fst).Nodup)
    (hok : ∀ p ∈ tables, ∀ row ∈ p.2, ∀ k ∈ keysOfTable schema p.1,
      (projRow row k.columns).isOk = true)
    (hfresh : ∀ p ∈ tables, ∀ k ∈ keysOfTable schema p.1, idxLookup st k.name = [])
    (hnodup : KeysOK schema tables) :
    ∃ st', keyPhase schema tables st = .ok st' ∧
      (∀ p ∈ tables, ∀ k ∈ keysOfTable schema p.1,
        idxLookup st' k.name = withPos ((p.2).map (fun r => projV r k.columns)) 0) ∧
      (∀ n, (∀ p ∈ tables, ∀ k ∈ keysOfTable schema p.1, k.name ≠ n) →
        idxLookup st' n = idxLookup st n) := by
  induction tables generalizing st with
  | nil => exact ⟨st, rfl, by simp, fun n _ => rfl⟩
  | cons p rest ih =>
    match p with
    | (t, rows) =>
      have hpmem : (t, rows) ∈ (t, rows) :: rest := List.mem_cons_self _ rest
      have hct : alContains schema.tables t = true := htab _ hpmem
      simp only [List.map_cons, List.nodup_cons] at htabnd
      obtain ⟨st1, hrun1, hupd1, hother1⟩ :=
        keyCheckRows_ok t (keysOfTable schema t) rows 0 st
          (keysOfTable_names_nodup t hcoh hknd)
          (fun row hrow k hk => hok _ hpmem row hrow k hk)
          (fun k hk e he => by rw [hfresh _ hpmem k hk] at he; cases he)
          (fun k hk row _ => by
            unfold entriesAt
            rw [hfresh _ hpmem k hk]
            simp)
          (fun k hk => hnodup _ hpmem k hk)
      have hcross : ∀ p' ∈ rest, ∀ k' ∈ keysOfTable schema p'.1,
          k'.name ∉ (keysOfTable schema t).map SchemaKeyRec.name := by
        intro p' hp' k' hk' hc
        rcases List.mem_map.mp hc with ⟨k0, hk0, hname⟩
        have hne : p'.1 ≠ t := by
          intro he
          exact htabnd.1 (he ▸ List.mem_map.mpr ⟨p', hp', rfl⟩)
        exact keysOfTable_cross_ne hcoh hknd hne hk' hk0 hname.symm
      obtain ⟨st', hrun, hupd, hother⟩ :=
        ih st1
          (fun p' hp' => htab p' (List.mem_cons_of_mem _ hp'))
          htabnd.2
          (fun p' hp' row hrow k hk => hok p' (List.mem_cons_of_mem _ hp') row hrow k hk)
          (fun p' hp' k hk => by
            rw [hother1 k.name (hcross p' hp' k hk)]
            exact hfresh p' (List.mem_cons_of_mem _ hp') k hk)
          (fun p' hp' k hk => hnodup p' (List.mem_cons_of_mem _ hp') k hk)
      refine ⟨st', ?_, ?_, ?_⟩
      · rw [keyPhase_cons, if_neg (by simp [hct]), hrun1, resBind_ok]
        exact hrun
      · intro p' hp' k hk
        rcases List.mem_cons.mp hp' with h | h
        · have hpt : p'.1 = t := by rw [h]
          have hk' : k ∈ keysOfTable schema t := hpt ▸ hk
          have huntouched : ∀ p'' ∈ rest, ∀ k'' ∈ keysOfTable schema p''.1,
              k''.name ≠ k.name := by
            intro p'' hp'' k'' hk'' hc
            exact hcross p'' hp'' k'' hk''
              (hc ▸ List.mem_map.mpr ⟨k, hk', rfl⟩)
          rw [hother k.name huntouched, hupd1 k hk', hfresh _ hpmem k hk']
          subst h
          simp
        · exact hupd p' h k hk
      · intro n hn
        have h1 : ∀ p' ∈ rest, ∀ k ∈ keysOfTable schema p'.1, k.name ≠ n :=
          fun p' hp' k hk => hn p' (List.mem_cons_of_mem _ hp') k hk
        have h2 : n ∉ (keysOfTable schema t).map SchemaKeyRec.name := by
          intro hc
          rcases List.mem_map.mp hc with ⟨k, hk, hname⟩
          exact hn _ hpmem k hk hname
        rw [hother n h1, hother1 n h2]

lemma keyPhase_err (schema : Schema) (tables : List (String × List (List V)))
    (st : IdxState)
    (hcoh : ∀ p ∈ schema.keys, (p.2).name = p.1)
    (hknd : (schema.keys.map Prod.fst).Nodup)
    (htab : ∀ p ∈ tables, alContains schema.tables p.1 = true)
    (htabnd : (tables.map Prod.fst).Nodup)
    (hok : ∀ p ∈ tables, ∀ row ∈ p.2, ∀ k ∈ keysOfTable schema p.1,
      (projRow row k.columns).isOk = true)
    (hfresh : ∀ p ∈ tables, ∀ k ∈ keysOfTable schema p.1, idxLookup st k.name = [])
    (hbad : ¬ KeysOK schema tables) :
    ∃ e, keyPhase schema tables st = .error e := by
  induction tables generalizing st with
  | nil => exact absurd (fun p hp => absurd hp (List.not_mem_nil p)) hbad
  | cons p rest ih =>
    match p with
    | (t, rows) =>
      have hpmem : (t, rows) ∈ (t, rows) :: rest := List.mem_cons_self _ rest
      have hct : alContains schema.tables t = true := htab _ hpmem
      simp only [List.map_cons, List.nodup_cons] at htabnd
      by_cases hhead : ∀ k ∈ keysOfTable schema t,
          (rows.map (fun r => projV r k.columns)).Nodup
      · obtain ⟨st1, hrun1, hupd1, hother1⟩ :=
          keyCheckRows_ok t (keysOfTable schema t) rows 0 st
            (keysOfTable_names_nodup t hcoh hknd)
            (fun row hrow k hk => hok _ hpmem row hrow k hk)
            (fun k hk e he => by rw [hfresh _ hpmem k hk] at he; cases he)
            (fun k hk row _ => by
              unfold entriesAt
              rw [hfresh _ hpmem k hk]
              simp)
            hhead
        have hcross : ∀ p' ∈ rest, ∀ k' ∈ keysOfTable schema p'.1,
            k'.name ∉ (keysOfTable schema t).map SchemaKeyRec.name := by
          intro p' hp' k' hk' hc
          rcases List.mem_map.mp hc with ⟨k0, hk0, hname⟩
          have hne : p'.1 ≠ t := by
            intro he
            exact htabnd.1 (he ▸ List.mem_map.mpr ⟨p', hp', rfl⟩)
          exact keysOfTable_cross_ne hcoh hknd hne hk' hk0 hname.symm
        have hbadrest : ¬ KeysOK schema rest := by
          intro hrest
          apply hbad
          intro p' hp' k hk
          rcases List.mem_cons.mp hp' with h | h
          · have hpt : p'.1 = t := by rw [h]
            have h2 : p'.2 = rows := by rw [h]
            rw [h2]
            exact hhead k (hpt ▸ hk)
          · exact hrest p' h k hk
        obtain ⟨e, herr⟩ :=
          ih st1
            (fun p' hp' => htab p' (List.mem_cons_of_mem _ hp'))
            htabnd.2
            (fun p' hp' row hrow k hk => hok p' (List.mem_cons_of_mem _ hp') row hrow k hk)
            (fun p' hp' k hk => by
              rw [hother1 k.name (hcross p' hp' k hk)]
              exact hfresh p' (List.mem_cons_of_mem _ hp') k hk)
            hbadrest
        refine ⟨e, ?_⟩
        rw [keyPhase_cons, if_neg (by simp [hct]), hrun1, resBind_ok]
        exact herr
      · push_neg at hhead
        rcases hhead with ⟨k, hk, hnd⟩
        obtain ⟨e, herr⟩ :=
          keyCheckRows_err t (keysOfTable schema t) rows 0 st
            (keysOfTable_names_nodup t hcoh hknd)
            (fun row hrow k' hk' => hok _ hpmem row hrow k' hk')
            (fun k' hk' e he => by rw [hfresh _ hpmem k' hk'] at he; cases he)
            ⟨k, hk, Or.inl hnd⟩
        refine ⟨e, ?_⟩
        rw [keyPhase_cons, if_neg (by simp [hct]), herr, resBind_err]

lemma fkeyCheckRow_cons (table : String) (fk : SchemaForeignKeyRec)
    (l : List Nat) (kn : String)
    (rest : List (SchemaForeignKeyRec × List Nat × String)) (row : List V)
    (st : IdxState) :
    fkeyCheckRow table ((fk, l, kn) :: rest) row st =
      (projRow row l) >>= (fun rk =>
        if (((idxLookup st kn).find? (fun e => e.1 = rk)).isNone : Bool) then
          .error (.integrityErrorFKey table row fk.name rk fk.reftable)
        else fkeyCheckRow table rest row st) := rfl

lemma fkeyCheckRow_ok_iff (table : String)
    (fks : List (SchemaForeignKeyRec × List Nat × String)) (row : List V)
    (st : IdxState)
    (hok : ∀ x ∈ fks, (projRow row x.2.1).isOk = true) :
    fkeyCheckRow table fks row st = .ok () ↔
      ∀ x ∈ fks, projV row x.2.1 ∈ entriesAt st x.2.2 := by
  induction fks with
  | nil => simp [fkeyCheckRow]
  | cons x rest ih =>
    match x with
    | (fk, l, kn) =>
      have hx : (fk, l, kn) ∈ (fk, l, kn) :: rest := List.mem_cons_self _ rest
      have hp := projRow_eq_ok (hok _ hx)
      rw [fkeyCheckRow_cons, hp, resBind_ok]
      by_cases hmem : projV row l ∈ entriesAt st kn
      · have : ((idxLookup st kn).find? (fun e => e.1 = projV row l)).isNone = false := by
          rcases List.mem_map.mp hmem with ⟨e, he, hfst⟩
          cases hfind : (idxLookup st kn).find? (fun e => e.1 = projV row l) with
          | some _ => simp
          | none =>
            exfalso
            have hno := List.find?_eq_none.mp hfind e he
            simp [hfst] at hno
        rw [this]
        simp only [Bool.false_eq_true, if_false]
        rw [ih (fun x hx' => hok x (List.mem_cons_of_mem _ hx'))]
        constructor
        · intro h x hx'
          rcases List.mem_cons.mp hx' with h' | h'
          · rw [h']
            exact hmem
          · exact h x h'
        · intro h x hx'
          exact h x (List.mem_cons_of_mem _ hx')
      · have : ((idxLookup st kn).find? (fun e => e.1 = projV row l)).isNone = true := by
          cases hfind : (idxLookup st kn).find? (fun e => e.1 = projV row l) with
          | some e =>
            exfalso
            apply hmem
            refine List.mem_map.mpr ⟨e, List.mem_of_find?_eq_some hfind, ?_⟩
            have h0 := List.find?_some hfind
            exact of_decide_eq_true h0
          | none => simp
        rw [this]
        simp only [if_true]
        constructor
        · intro h
          cases h
        · intro h
          exact absurd (h _ hx) hmem

lemma fkeyCheckRows_cons (table : String)
    (fks : List (SchemaForeignKeyRec × List Nat × String)) (r : List V)
    (rest : List (List V)) (st : IdxState) :
    fkeyCheckRows table fks (r :: rest) st =
      (fkeyCheckRow table fks r st) >>= (fun _ => fkeyCheckRows table fks rest st) := rfl

lemma fkeyCheckRows_ok_iff (table : String)
    (fks : List (SchemaForeignKeyRec × List Nat × String)) (rows : List (List V))
    (st : IdxState)
    (hok : ∀ row ∈ rows, ∀ x ∈ fks, (projRow row x.2.1).isOk = true) :
    fkeyCheckRows table fks rows st = .ok () ↔
      ∀ row ∈ rows, ∀ x ∈ fks, projV row x.2.1 ∈ entriesAt st x.2.2 := by
  induction rows with
  | nil => simp [fkeyCheckRows]
  | cons r rest ih =>
    have hrmem : r ∈ r :: rest := List.mem_cons_self r rest
    rw [fkeyCheckRows_cons]
    cases hrow : fkeyCheckRow table fks r st with
    | error e =>
      rw [resBind_err]
      constructor
      · intro h
        cases h
      · intro h
        have := (fkeyCheckRow_ok_iff table fks r st (fun x hx => hok r hrmem x hx)).mpr
          (fun x hx => h r hrmem x hx)
        rw [this] at hrow
        cases hrow
    | ok u =>
      cases u
      rw [resBind_ok]
      have hhead := (fkeyCheckRow_ok_iff table fks r st
        (fun x hx => hok r hrmem x hx)).mp hrow
      rw [ih (fun row h x hx => hok row (List.mem_cons_of_mem r h) x hx)]
      constructor
      · intro h row hmem x hx
        rcases List.mem_cons.mp hmem with h' | h'
        · exact h' ▸ hhead x hx
        · exact h row h' x hx
      · intro h row hmem x hx
        exact h row (List.mem_cons_of_mem r hmem) x hx

lemma fkeySetupGo_ok_mem {schema : Schema} {l : List SchemaForeignKeyRec}
    (h : fkeySetupGo schema l = .ok ()) :
    ∀ fk ∈ l, ∃ x, resolveFkey (keysOfTable schema fk.reftable) fk = .ok x := by
  induction l with
  | nil => intro fk hfk; cases hfk
  | cons f rest ih =>
    intro fk hfk
    unfold fkeySetupGo at h
    cases hres : resolveFkey (keysOfTable schema f.reftable) f with
    | error e => rw [hres] at h; cases h
    | ok x =>
      rw [hres] at h
      rcases List.mem_cons.mp hfk with h' | h'
      · exact ⟨x, h' ▸ hres⟩
      · exact ih h fk h'

lemma resolveFkeyList_ok {schema : Schema} {l : List SchemaForeignKeyRec}
    (h : ∀ fk ∈ l, ∃ x, resolveFkey (keysOfTable schema fk.reftable) fk = .ok x) :
    ∃ ys, resolveFkeyList schema l = .ok ys ∧
      (∀ y ∈ ys, y.1 ∈ l ∧ resolveFkey (keysOfTable schema y.1.reftable) y.1 = .ok y.2) ∧
      (∀ fk ∈ l, ∃ y ∈ ys, y.1 = fk) := by
  induction l with
  | nil => exact ⟨[], rfl, fun y hy => absurd hy (List.not_mem_nil y), fun fk hfk => absurd hfk (List.not_mem_nil fk)⟩
  | cons f rest ih =>
    obtain ⟨x, hx⟩ := h f (List.mem_cons_self f rest)
    obtain ⟨ys, hys, hcorr, hcover⟩ := ih (fun fk hfk => h fk (List.mem_cons_of_mem f hfk))
    match x with
    | (lx, knx) =>
      refine ⟨(f, lx, knx) :: ys, ?_, ?_, ?_⟩
      · unfold resolveFkeyList
        rw [hx, hys]
      · intro y hy
        rcases List.mem_cons.mp hy with h' | h'
        · refine ⟨?_, ?_⟩
          · rw [h']
            exact List.mem_cons_self f rest
          · rw [h']
            exact hx
        · obtain ⟨hm, hr⟩ := hcorr y h'
          exact ⟨List.mem_cons_of_mem f hm, hr⟩
      · intro fk hfk
        rcases List.mem_cons.mp hfk with h' | h'
        · exact ⟨(f, lx, knx), List.mem_cons_self _ ys, h'.symm⟩
        · obtain ⟨y, hy, hfst⟩ := hcover fk h'
          exact ⟨y, List.mem_cons_of_mem _ hy, hfst⟩

lemma fkeysOfTable_ok {schema : Schema} (t : String)
    (hsetup : fkeySetup schema = .ok ()) :
    ∃ fks, fkeysOfTable schema t = .ok fks ∧
      (∀ y ∈ fks, y.1 ∈ schema.foreignkeys.map Prod.snd ∧ y.1.table = t ∧
        resolveFkey (keysOfTable schema y.1.reftable) y.1 = .ok y.2) ∧
      (∀ fk ∈ schema.foreignkeys.map Prod.snd, fk.table = t → ∃ y ∈ fks, y.1 = fk) := by
  have hall := fkeySetupGo_ok_mem hsetup
  have hfiltered : ∀ fk ∈ (schema.foreignkeys.map Prod.snd).filter (fun k => k.table = t),
      ∃ x, resolveFkey (keysOfTable schema fk.reftable) fk = .ok x := by
    intro fk hfk
    exact hall fk (List.mem_of_mem_filter hfk)
  obtain ⟨ys, hys, hcorr, hcover⟩ := resolveFkeyList_ok hfiltered
  refine ⟨ys, hys, ?_, ?_⟩
  · intro y hy
    obtain ⟨hm, hr⟩ := hcorr y hy
    have := List.mem_filter.mp hm
    exact ⟨this.1, of_decide_eq_true this.2, hr⟩
  · intro fk hfk htbl
    exact hcover fk (List.mem_filter.mpr ⟨hfk, by simp [htbl]⟩)

lemma resolveFkey_ok_inv {keysRef : List SchemaKeyRec} {fk : SchemaForeignKeyRec}
    {l : List Nat} {kn : String}
    (h : resolveFkey keysRef fk = .ok (l, kn)) :
    ∃ k' ∈ keysRef, k'.name = kn ∧ k'.columns = fkRemote fk ∧ l = fkLocal fk := by
  unfold resolveFkey at h
  cases hm : keysRef.filter (fun k => k.columns = fkRemote fk) with
  | nil =>
    rw [hm] at h
    cases h
  | cons a rest =>
    cases rest with
    | nil =>
      rw [hm] at h
      simp only [Except.ok.injEq, Prod.mk.injEq] at h
      have hafilter : a ∈ keysRef.filter (fun k => k.columns = fkRemote fk) := by
        rw [hm]
        exact List.mem_singleton.mpr rfl
      refine ⟨a, List.mem_of_mem_filter hafilter, h.2, ?_, h.1.symm⟩
      have h0 := List.of_mem_filter hafilter
      exact of_decide_eq_true h0
    | cons b rest2 =>
      rw [hm] at h
      cases h

lemma fkeyPhase_cons (schema : Schema) (t : String) (rows : List (List V))
    (rest : List (String × List (List V))) (st : IdxState) :
    fkeyPhase schema ((t, rows) :: rest) st =
      if ¬ alContains schema.tables t then .error .keyError
      else (fkeysOfTable schema t) >>= (fun fks =>
        (fkeyCheckRows t fks rows st) >>= (fun _ => fkeyPhase schema rest st)) := rfl

lemma fkeyPhase_ok_iff (schema : Schema) (tlist : List (String × List (List V)))
    (st : IdxState)
    (htab : ∀ p ∈ tlist, alContains schema.tables p.1 = true)
    (hsetup : fkeySetup schema = .ok ())
    (hok : ∀ p ∈ tlist, ∀ row ∈ p.2, ∀ fks, fkeysOfTable schema p.1 = .ok fks →
      ∀ x ∈ fks, (projRow row x.2.1).isOk = true) :
    fkeyPhase schema tlist st = .ok () ↔
      ∀ p ∈ tlist, ∀ fks, fkeysOfTable schema p.1 = .ok fks →
        ∀ row ∈ p.2, ∀ x ∈ fks, projV row x.2.1 ∈ entriesAt st x.2.2 := by
  induction tlist with
  | nil => simp [fkeyPhase]
  | cons p rest ih =>
    match p with
    | (t, rows) =>
      have hpmem : (t, rows) ∈ (t, rows) :: rest := List.mem_cons_self _ rest
      have hct : alContains schema.tables t = true := htab _ hpmem
      obtain ⟨fks, hfks, _, _⟩ := fkeysOfTable_ok t hsetup
      rw [fkeyPhase_cons, if_neg (by simp [hct]), hfks, resBind_ok]
      have hrows := fkeyCheckRows_ok_iff t fks rows st
        (fun row hrow x hx => hok _ hpmem row hrow fks hfks x hx)
      cases hcr : fkeyCheckRows t fks rows st with
      | error e =>
        rw [resBind_err]
        constructor
        · intro h
          cases h
        · intro h
          have := hrows.mpr (fun row hrow x hx => h _ hpmem fks hfks row hrow x hx)
          rw [this] at hcr
          cases hcr
      | ok u =>
        cases u
        rw [resBind_ok]
        have hhead := hrows.mp hcr
        rw [ih (fun p' hp' => htab p' (List.mem_cons_of_mem _ hp'))
          (fun p' hp' row hrow fks' hfks' x hx =>
            hok p' (List.mem_cons_of_mem _ hp') row hrow fks' hfks' x hx)]
        constructor
        · intro h p' hp' fks' hfks' row hrow x hx
          rcases List.mem_cons.mp hp' with h' | h'
          · subst h'
            rw [hfks] at hfks'
            cases hfks'
            exact hhead row hrow x hx
          · exact h p' h' fks' hfks' row hrow x hx
        · intro h p' hp' fks' hfks' row hrow x hx
          exact h p' (List.mem_cons_of_mem _ hp') fks' hfks' row hrow x hx

lemma idxLookup_nil (n : String) : idxLookup [] n = [] := rfl

lemma withPos_map_fst (l : List (List V)) (pos : Nat) :
    (withPos l pos).map Prod.fst = l := by
  induction l generalizing pos with
  | nil => rfl
  | cons x xs ih => simp [withPos, ih]

lemma alGet?_eq_none {α : Type} {l : List (String × α)} {k : String}
    (h : k ∉ l.map Prod.fst) : alGet? l k = none := by
  unfold alGet?
  cases hf : l.find? (fun p => p.1 = k) with
  | none => rfl
  | some p =>
    exfalso
    apply h
    have hm := List.mem_of_find?_eq_some hf
    have hp := List.find?_some hf
    exact List.mem_map.mpr ⟨p, hm, of_decide_eq_true hp⟩

/-- After a successful KEY phase starting from the empty state, the entries
stored under the name of a declared key of table `T` are exactly the
projections of `T`'s rows in the database (empty when `T` carries no rows
in the database). -/
lemma finalEntries {schema : Schema} {tables : List (String × List (List V))}
    {st' : IdxState}
    (hcoh : ∀ p ∈ schema.keys, (p.2).name = p.1)
    (hknd : (schema.keys.map Prod.fst).Nodup)
    (htabnd : (tables.map Prod.fst).Nodup)
    (hupd : ∀ p ∈ tables, ∀ k ∈ keysOfTable schema p.1,
      idxLookup st' k.name = withPos ((p.2).map (fun r => projV r k.columns)) 0)
    (hother : ∀ n, (∀ p ∈ tables, ∀ k ∈ keysOfTable schema p.1, k.name ≠ n) →
      idxLookup st' n = idxLookup [] n)
    {T : String} {k' : SchemaKeyRec} (hk' : k' ∈ keysOfTable schema T) :
    entriesAt st' k'.name =
      (refRowsOf tables T).map (fun r => projV r k'.columns) := by
  by_cases hT : ∃ rows, (T, rows) ∈ tables
  · rcases hT with ⟨rows, hm⟩
    have hlk := hupd (T, rows) hm k' hk'
    unfold entriesAt
    rw [hlk, withPos_map_fst]
    unfold refRowsOf
    rw [alGet?_eq_some_of_mem htabnd hm]
    rfl
  · have hT' : T ∉ tables.map Prod.fst := by
      intro hc
      rcases List.mem_map.mp hc with ⟨p, hp, hfst⟩
      have hp2 : (p.1, p.2) ∈ tables := hp
      rw [hfst] at hp2
      exact hT ⟨p.2, hp2⟩
    have hnone : ∀ p ∈ tables, ∀ k ∈ keysOfTable schema p.1, k.name ≠ k'.name := by
      intro p hp k hk hc
      have hkk' := schemaKey_name_inj hcoh hknd k (keysOfTable_mem_iff.mp hk).1
        k' (keysOfTable_mem_iff.mp hk').1 hc
      have h1 := (keysOfTable_mem_iff.mp hk).2
      have h2 := (keysOfTable_mem_iff.mp hk').2
      apply hT'
      have hpT : p.1 = T := by rw [← h1, hkk', h2]
      exact List.mem_map.mpr ⟨p, hp, hpT⟩
    have hlk := hother k'.name hnone
    unfold entriesAt
    rw [hlk, idxLookup_nil]
    unfold refRowsOf
    rw [alGet?_eq_none hT']
    rfl

/-- C2 amended: `check_database_integrity` enforces exactly the *declared*
constraints.  For a well-formed schema (coherent, uniquely named keys;
every foreign key resolving to a declared unique key of its referenced
table) and a database whose tables are declared, uniquely named, and
whose rows are long enough for every projection, the check succeeds iff
every declared key's projections are pairwise distinct and every foreign
key projection appears among the referenced table's key projections.
There is no implicit all-columns key (see the counterexample theorem:
a duplicated row in a keyless table passes). -/
theorem C2_amended_integrity_iff (schema : Schema)
    (tables : List (String × List (List V)))
    (hcoh : ∀ p ∈ schema.keys, (p.2).name = p.1)
    (hknd : (schema.keys.map Prod.fst).Nodup)
    (htab : ∀ p ∈ tables, alContains schema.tables p.1 = true)
    (htabnd : (tables.map Prod.fst).Nodup)
    (hsetup : fkeySetup schema = .ok ())
    (hokKeys : ∀ p ∈ tables, ∀ row ∈ p.2, ∀ k ∈ keysOfTable schema p.1,
      (projRow row k.columns).isOk = true)
    (hokFks : ∀ p ∈ tables, ∀ row ∈ p.2, ∀ fk ∈ schema.foreignkeys.map Prod.snd,
      fk.table = p.1 → (projRow row (fkLocal fk)).isOk = true) :
    check_database_integrity schema tables = .ok () ↔
      KeysOK schema tables ∧ FksOK schema tables := by
  have hck : check_database_integrity schema tables =
      (keyPhase schema tables []) >>= (fun st =>
        fkeyPhase schema (sortBy (fun a b => strLeB a.1 b.1) tables) st) := by
    unfold check_database_integrity
    rw [hsetup, resBind_ok]
  have htabS : ∀ p ∈ sortBy (fun a b => strLeB a.1 b.1) tables,
      alContains schema.tables p.1 = true :=
    fun p hp => htab p (mem_sortBy.mp hp)
  have hokFksS : ∀ p ∈ sortBy (fun a b => strLeB a.1 b.1) tables, ∀ row ∈ p.2,
      ∀ fks, fkeysOfTable schema p.1 = .ok fks →
      ∀ x ∈ fks, (projRow row x.2.1).isOk = true := by
    intro p hpS row hrow fks hfks x hx
    have hp := mem_sortBy.mp hpS
    obtain ⟨fks', hfks', hcorr, _⟩ := fkeysOfTable_ok p.1 hsetup
    have heq : fks' = fks := by
      rw [hfks] at hfks'
      exact (Except.ok.inj hfks').symm
    subst heq
    obtain ⟨hxmem, hxtbl, hxres⟩ := hcorr x hx
    have hres2 : resolveFkey (keysOfTable schema x.1.reftable) x.1 =
        .ok (x.2.1, x.2.2) := hxres
    obtain ⟨k', _, _, _, hl⟩ := resolveFkey_ok_inv hres2
    rw [hl]
    exact hokFks p hp row hrow x.1 hxmem hxtbl
  constructor
  · intro h
    cases hkp : keyPhase schema tables [] with
    | error e =>
      rw [hck, hkp, resBind_err] at h
      cases h
    | ok st1 =>
      rw [hck, hkp, resBind_ok] at h
      have hKeysOK : KeysOK schema tables := by
        by_contra hbad
        obtain ⟨e, herr⟩ := keyPhase_err schema tables [] hcoh hknd htab htabnd
          hokKeys (fun p _ k _ => idxLookup_nil k.name) hbad
        rw [herr] at hkp
        cases hkp
      obtain ⟨st2, hrun2, hupd, hother⟩ := keyPhase_ok schema tables [] hcoh hknd
        htab htabnd hokKeys (fun p _ k _ => idxLookup_nil k.name) hKeysOK
      have hst : st2 = st1 := by
        rw [hkp] at hrun2
        exact (Except.ok.inj hrun2).symm
      subst hst
      refine ⟨hKeysOK, ?_⟩
      have hfwd := (fkeyPhase_ok_iff schema _ st2 htabS hsetup hokFksS).mp h
      intro p hp fk hfk htblfk l kn hres k' hk' hname row hrow
      obtain ⟨fks, hfks, hcorr, hcover⟩ := fkeysOfTable_ok p.1 hsetup
      obtain ⟨y, hy, hyfst⟩ := hcover fk hfk htblfk
      have hyres := (hcorr y hy).2.2
      rw [hyfst, hres] at hyres
      have hy2 : y.2 = (l, kn) := (Except.ok.inj hyres).symm
      have hmemS : p ∈ sortBy (fun a b => strLeB a.1 b.1) tables := mem_sortBy.mpr hp
      have hx := hfwd p hmemS fks hfks row hrow y hy
      rw [hy2] at hx
      simp only at hx
      have hent := finalEntries hcoh hknd htabnd hupd hother hk'
      rw [hname] at hent
      rw [hent] at hx
      exact hx
  · intro hok2
    obtain ⟨hKeys, hFks⟩ := hok2
    obtain ⟨st1, hrun, hupd, hother⟩ := keyPhase_ok schema tables [] hcoh hknd
      htab htabnd hokKeys (fun p _ k _ => idxLookup_nil k.name) hKeys
    rw [hck, hrun, resBind_ok]
    apply (fkeyPhase_ok_iff schema _ st1 htabS hsetup hokFksS).mpr
    intro p hpS fks hfks row hrow x hx
    obtain ⟨fks', hfks', hcorr, _⟩ := fkeysOfTable_ok p.1 hsetup
    have heq : fks' = fks := by
      rw [hfks] at hfks'
      exact (Except.ok.inj hfks').symm
    subst heq
    have hp : p ∈ tables := mem_sortBy.mp hpS
    obtain ⟨hxmem, hxtbl, hxres⟩ := hcorr x hx
    have hres2 : resolveFkey (keysOfTable schema x.1.reftable) x.1 =
        .ok (x.2.1, x.2.2) := hxres
    obtain ⟨k', hk', hkname, _, _⟩ := resolveFkey_ok_inv hres2
    have hmem := hFks p hp x.1 hxmem hxtbl x.2.1 x.2.2 hres2 k' hk' hkname row hrow
    have hent := finalEntries hcoh hknd htabnd hupd hother hk'
    rw [hkname] at hent
    rw [hent]
    exact hmem

/-- Witness for the amended C2 theorem: the scenario schema with the
constraint-satisfying database; all hypotheses are discharged by
evaluation. -/
theorem C2_amended_integrity_iff_witness :
    check_database_integrity schemaC5 tablesC5ok = .ok () ↔
      KeysOK schemaC5 tablesC5ok ∧ FksOK schemaC5 tablesC5ok :=
  C2_amended_integrity_iff schemaC5 tablesC5ok (by decide) (by decide) (by decide)
    (by decide) (by decide) (by decide) (by decide)

/-! ### Claims C3, C7, C10 -/

/-- C3 counterexample: the database-direction round trip fails for a
coverage-total, injective shape.  For the list shape
`list for (i v) (T i v)` and the consistent database `T = [(5, 7)]`,
`rows2objects` yields the list `[7]` and `objects2rows` renumbers the
`_idx_` column from 0 (Python `enumerate`), returning `T = [(0, 7)]`
— not the original database. -/
theorem C3_counterexample_list_idx_renumbered :
    rows2objects listSpec listDB = .ok (Obj.olist [Obj.prim (V.vint 7)]) ∧
    objects2rows listSpec (Obj.olist [Obj.prim (V.vint 7)]) =
      .ok [("T", [[some (V.vint 0), some (V.vint 7)]])] ∧
    [("T", [[some (V.vint 0), some (V.vint 7)]])] ≠ dbToW listDB := by
  refine ⟨by rfl, by decide, by decide⟩

/-- C3 amended: the two round-trip identities hold on the spec's
scenario-3 shape and tables (dict of structs with an optional join):
reading the tables yields exactly the scenario object, and writing that
object back returns exactly the original tables (sorted).  As the
counterexample shows, the database-direction identity does not hold for
every coverage-total injective shape: any `List` node renumbers its
`_idx_` column to 0..n-1, so only databases whose list indices are
already consecutive from 0 (e.g. those produced by `objects2rows`)
can round-trip. -/
theorem C3_amended_scenario_roundtrip :
    resObjEq (rows2objects scen3Spec scen3DB) scen3Obj = true ∧
    objects2rows scen3Spec scen3Obj = .ok (dbToW scen3DB) := by
  refine ⟨by decide, by decide⟩

/-- C7 counterexample: the write-once conflict raises plain
`ValueError`, not `wsl.IntegrityError`.  `Settable.set`
(objects2rows.py:14-17) raises
`ValueError('A relational value was must be present at two locations ...
but these values do not agree (values 1 and 2)')`; `wsl.IntegrityError`
is a strict subclass of `ValueError` that this raise site never uses. -/
theorem C7_counterexample_conflict_is_valueerror :
    objects2rows specC7
        (Obj.struct [("x", Obj.prim (V.vint 1)), ("y", Obj.prim (V.vint 2))]) =
      .error (.valueErrorSettableConflict (V.vint 1) (V.vint 2)) := by
  decide

/-- C7 amended: when a shape uses the same variable in two subtrees and
the object tree disagrees at those places, `objects2rows` fails with the
write-once `ValueError` carrying the two values (not an
`IntegrityError`); setting the cell twice to equal values succeeds and
produces one row. -/
theorem C7_conflict_behaviour :
    objects2rows specC7
        (Obj.struct [("x", Obj.prim (V.vint 1)), ("y", Obj.prim (V.vint 2))]) =
      .error (.valueErrorSettableConflict (V.vint 1) (V.vint 2)) ∧
    objects2rows specC7
        (Obj.struct [("x", Obj.prim (V.vint 1)), ("y", Obj.prim (V.vint 1))]) =
      .ok [("T", [[some (V.vint 1)]])] := by
  refine ⟨by decide, by decide⟩

lemma fcrLoop_err (index : List (List V × (List V × Nat)))
    (fkeyLocal freshIdxs : List Nat) (tblRows : List (List V))
    (hlocal : ∀ row ∈ tblRows, (pickRow row fkeyLocal).isOk = true)
    (hfresh : ∀ row ∈ tblRows, (pickRow row freshIdxs).isOk = true)
    (horphan : ∃ row ∈ tblRows, assocFindV index (pickV row fkeyLocal) = none) :
    fcrLoop index fkeyLocal freshIdxs tblRows = .error .keyError := by
  induction tblRows with
  | nil => simp at horphan
  | cons row rest ih =>
    have hrmem : row ∈ row :: rest := List.mem_cons_self row rest
    have hpick : pickRow row fkeyLocal = .ok (pickV row fkeyLocal) := by
      unfold pickV
      cases hp : pickRow row fkeyLocal with
      | ok vs => rfl
      | error e =>
        have hbad := hlocal row hrmem
        rw [hp] at hbad
        simp [Except.isOk, Except.toBool] at hbad
    unfold fcrLoop
    rw [hpick, resBind_ok]
    cases hfind : assocFindV index (pickV row fkeyLocal) with
    | none => rfl
    | some fr =>
      cases hp : pickRow row freshIdxs with
      | error e =>
        have hbad := hfresh row hrmem
        rw [hp] at hbad
        simp [Except.isOk, Except.toBool] at hbad
      | ok fresh =>
        have hrec : fcrLoop index fkeyLocal freshIdxs rest = .error .keyError := by
          apply ih
          · intro r hr
            exact hlocal r (List.mem_cons_of_mem row hr)
          · intro r hr
            exact hfresh r (List.mem_cons_of_mem row hr)
          · rcases horphan with ⟨r, hr, hnone⟩
            rcases List.mem_cons.mp hr with h | h
            · rw [← h] at hfind
              rw [hfind] at hnone
              cases hnone
            · exact ⟨r, h, hnone⟩
        simp [hp, hrec]

/-- C10: whenever the queried table holds a row whose projection onto the
non-fresh ("foreign key") columns matches none of the current parent
rows' bindings, the join of `find_child_rows` fails with a raw Python
`KeyError` from `index[key]` (rows2objects.py:24) — the row is neither
skipped nor reported through one of the library's error classes.  The
hypotheses state that the query's variable lookups and the index
construction succeed and that the table's rows are long enough for both
projections, i.e. that the earlier, unrelated failure modes do not
fire. -/
theorem C10_orphan_row_raises_keyerror
    (cols : List String) (rows : List (List V)) (objs : List Nat) (query : Query)
    (database : DB) (tblRows : List (List V))
    (fkeyLocal fkeyForeign : List Nat) (index : List (List V × (List V × Nat)))
    (hlocal : fcrFkeyLocal query = .ok fkeyLocal)
    (hforeign : fcrFkeyForeign query cols = .ok fkeyForeign)
    (hindex : fcrBuildIndex fkeyForeign rows objs = .ok index)
    (htable : alGet? database query.table = some tblRows)
    (hproj : ∀ row ∈ tblRows, (pickRow row fkeyLocal).isOk = true)
    (hprojFresh : ∀ row ∈ tblRows, (pickRow row (fcrFreshIdxs query)).isOk = true)
    (horphan : ∃ row ∈ tblRows, assocFindV index (pickV row fkeyLocal) = none) :
    find_child_rows cols rows objs query database = .error .keyError := by
  unfold find_child_rows
  have hloop := fcrLoop_err index fkeyLocal (fcrFreshIdxs query) tblRows hproj
    hprojFresh horphan
  simp [hlocal, hforeign, hindex, htable, hloop]

/-- Witness for C10: the scope binds `x = 1`, the table holds the orphan
row `(2)`. -/
theorem C10_orphan_row_raises_keyerror_witness :
    find_child_rows ["x"] [[V.vint 1]] [0] ⟨[], "T", ["x"]⟩
        [("T", [[V.vint 2]])] = .error .keyError :=
  C10_orphan_row_raises_keyerror ["x"] [[V.vint 1]] [0] ⟨[], "T", ["x"]⟩
    [("T", [[V.vint 2]])] [[V.vint 2]] [0] [0] [([V.vint 1], ([V.vint 1], 0))]
    (by decide) (by decide) (by decide) (by decide) (by decide) (by decide)
    ⟨[V.vint 2], by decide, by decide⟩

/-- C4: the text shape round-trip does not exist in the code.  Writing
the one-element Int list through `objects2text` (with the module's own
`format_int`) emits `\nvalue 3\n` — but `text2objects` rejects EVERY
input text for this spec before reading a character, because
`make_make_wslreader` requires a `wsllex` attribute no built-in domain
funcs object has, so reader construction raises
`ValueError('There is no reader for datatype "Int"')`.  And even given a
working caller-supplied reader, `list_reader` accumulates the parsed
members into a Python set (text2objects.py:224,234): `3\n3\n7\n` parses
to the two-element set of 3 and 7, deduplicated and unordered, never
equal to the list that was written. -/
theorem C4_text_roundtrip_broken :
    objects2text c4Lookup listSpec (Obj.olist [Obj.prim (V.vint 3)]) =
      .ok "\nvalue 3\n" ∧
    (∀ t : Text, text2objects schemaC2 listSpec t =
      .error (.valueError "There is no reader for datatype \"Int\"")) ∧
    c4ListReadIsSet = true := by
  refine ⟨by decide, fun _ => rfl, by decide⟩

lemma length_sortBy {α : Type} (le : α → α → Bool) (l : List α) :
    (sortBy le l).length = l.length :=
  (sortBy_perm le l).length_eq

/-- C1: the database round-trip is unachievable.  Parsing already fails:
`parse_values` (parse.py:305) unpacks `val, i = do.decode(line, i)`
though the decoders return `(newpos, value)`, so on the scenario-1 row
`Person jane [Jane Dane]` the decoded string `jane` becomes the next
position and the following `parse_space` indexes the line with a string,
a `TypeError`.  Formatting fails too: `format_db` reads
`schema.domains_of_relation` (format.py:82), an attribute
`Schema.__init__` never defines, so formatting any database with at
least one relation raises `AttributeError` before any row is emitted. -/
theorem C1_roundtrip_unachievable :
    parse_row ("Person jane [Jane Dane]".data) objectsScen1 =
      .error (.typeErrorBuiltin "string indices must be integers") ∧
    (∀ tuples : List (String × List (List V)), tuples ≠ [] →
      format_db schemaScen1 tuples false =
        .error (.attributeError "domains_of_relation")) := by
  refine ⟨by decide, ?_⟩
  intro tuples h
  cases hs : sortBy strLeB (tuples.map Prod.fst) with
  | cons y ys =>
    unfold format_db
    rw [hs]
  | nil =>
    have hlen := length_sortBy strLeB (tuples.map Prod.fst)
    rw [hs] at hlen
    simp only [List.length_nil, List.length_map] at hlen
    exact absurd (List.length_eq_zero.mp hlen.symm) h

/-- Witness for C1: a one-relation database hits the `AttributeError`. -/
theorem C1_roundtrip_unachievable_witness :
    ([("Person", [[V.vstr "jane", V.vstr "Jane Dane"]])] :
      List (String × List (List V))) ≠ [] ∧
    format_db schemaScen1 [("Person", [[V.vstr "jane", V.vstr "Jane Dane"]])] false =
      .error (.attributeError "domains_of_relation") :=
  ⟨by decide, C1_roundtrip_unachievable.2
    [("Person", [[V.vstr "jane", V.vstr "Jane Dane"]])] (by decide)⟩

end WslSpec
